import Mathlib

/-!
Verification of the `dynamic_pricing` e-commerce backend (flash-sale purchase
engine, dynamic pricing engine, product catalog writes).

The Python services are shallowly embedded: every database table becomes a
list of records inside a `DB` value, every service function becomes a pure
Lean function from the old `DB` (plus the call's inputs and the sampled
current time) to the new `DB` and a result value.  SQLAlchemy sessions are
modelled by explicit state passing: statements executed before `commit()`
build a pending state which is installed only when the commit succeeds
(`commit_ok = true`); a raised exception before a commit discards the
pending state, exactly as the request-scoped session does.

Python `datetime` values are embedded as rational numbers of seconds
(`ℚ`), which supports the sub-second precision of `datetime.utcnow()`.
Python `float` prices are embedded as `ℚ`; every arithmetic operation the
services perform on prices (`*`, `-`, `/`, `max`, comparisons) is mapped to
the corresponding exact operation.
-/

namespace DynamicPricing

/-- Python `int(x)` on a (finite) number: truncation toward zero. -/
def pyTrunc (q : ℚ) : ℤ := if q < 0 then -(Int.floor (-q)) else Int.floor q

/-- SQLAlchemy `query(...).filter(pk == v).first()` followed by a mutation
updates the first matching row only; `updateFirst` is that write pattern. -/
def updateFirst {α : Type} (p : α → Bool) (f : α → α) : List α → List α
  | [] => []
  | x :: xs => if p x then f x :: xs else x :: updateFirst p f xs

/-! ## Data model (`app/models/*.py`)

Only the columns the verified services read or write are carried. -/

/-- `app/models/product.py`, class `Product`. -/
structure Product where
  product_id : String
  name : String
  category : String
  base_price : ℚ
  current_price : ℚ
  cost_price : ℚ
  min_allowed_price : ℚ
  currency : String
  stock_quantity : ℤ
  pricing_tier : String
  deriving DecidableEq

/-- `app/models/flash_sale.py`, class `FlashSale`.  `visitors` is declared
`nullable=False` but the service reads it with `sale.visitors or 0`, so the
embedding keeps it optional. -/
structure FlashSale where
  flash_sale_id : String
  name : String
  start_time : ℚ
  end_time : ℚ
  status : String
  visibility : String
  visitors : Option ℤ
  deriving DecidableEq

/-- `app/models/flash_sale.py`, class `FlashSaleProduct`.  `id` is the
integer primary key targeted by the conditional `UPDATE` in
`purchase_in_flash_sale`. -/
structure FlashSaleProduct where
  id : ℤ
  flash_sale_id : String
  product_id : String
  flash_sale_price : ℚ
  original_price : ℚ
  discount_percentage : ℚ
  stock_allocated : ℤ
  stock_remaining : ℤ
  max_per_user : ℤ
  version : ℤ
  deriving DecidableEq

/-- `app/models/flash_sale.py`, class `FlashSaleOrder`. -/
structure FlashSaleOrder where
  order_id : String
  flash_sale_id : String
  product_id : String
  user_id : String
  quantity : ℤ
  flash_sale_price : ℚ
  total_price : ℚ
  savings : ℚ
  status : String
  payment_method : Option String
  client_ip : Option String
  device_fingerprint : Option String
  purchase_timestamp : ℚ
  deriving DecidableEq

/-- One entry of the JSON `tiers` column of a pricing rule
(`quantity_based` rules); fields are read with `tier.get(...)`, hence
optional. -/
structure RuleTier where
  min_quantity : Option ℤ
  max_quantity : Option ℤ
  discount_percentage : Option ℚ
  deriving DecidableEq

/-- The JSON `schedule` column of a pricing rule; fields are read with
`schedule.get(...)`, hence optional. -/
structure RuleSchedule where
  days_of_week : Option (List String)
  start_time : Option String
  end_time : Option String
  deriving DecidableEq

/-- `app/models/pricing_rule.py`, class `PricingRule`.  The JSON list
columns default to `[]`; a SQL `NULL` behaves like the empty list under the
truthiness checks the engine performs, so both are embedded as `[]`. -/
structure PricingRule where
  rule_id : String
  type : String
  name : String
  product_ids : List String
  product_categories : List String
  discount_type : Option String
  discount_value : Option ℚ
  tiers : List RuleTier
  user_tiers : List String
  min_cart_value : Option ℚ
  schedule : Option RuleSchedule
  priority : ℤ
  status : String
  is_exclusive : Bool
  valid_from : Option ℚ
  valid_until : Option ℚ
  deriving DecidableEq

/-- `app/models/price_history.py` rows written by `record_price_change`. -/
structure PriceHistoryRec where
  product_id : String
  price_type : String
  old_price : ℚ
  new_price : ℚ
  deriving DecidableEq

/-- The database: one list per table. -/
structure DB where
  products : List Product
  flash_sales : List FlashSale
  flash_sale_products : List FlashSaleProduct
  orders : List FlashSaleOrder
  pricing_rules : List PricingRule
  price_history : List PriceHistoryRec
  deriving DecidableEq

/-! ## Flash-sale service (`app/services/flash_sale.py`) -/

/-- `COOLING_PERIOD_SECONDS = 60`. -/
def COOLING_PERIOD_SECONDS : ℤ := 60

/-- The process-local `_USER_PURCHASES` dict, keyed by
`(user_id, flash_sale_id, product_id)`. -/
abbrev LocalCounts : Type := List ((String × String × String) × ℤ)

/-- `_USER_PURCHASES.get(key, 0)`. -/
def localGet (m : LocalCounts) (k : String × String × String) : ℤ :=
  match List.find? (fun e => e.1 == k) m with
  | some e => e.2
  | none => 0

/-- `_USER_PURCHASES[key] = _USER_PURCHASES.get(key, 0) + qty`. -/
def localInc (m : LocalCounts) (k : String × String × String) (qty : ℤ) : LocalCounts :=
  let v := localGet m k + qty
  if (List.find? (fun e => e.1 == k) m).isSome then
    updateFirst (fun e => e.1 == k) (fun e => (e.1, v)) m
  else m ++ [(k, v)]

/-- Schema `FlashSaleProductItemCreate` (`app/schemas/flash_sale.py`). -/
structure FlashSaleProductItemCreate where
  product_id : String
  flash_sale_price : ℚ
  stock_allocated : ℤ
  max_per_user : ℤ
  original_price : Option ℚ
  discount_percentage : Option ℚ
  deriving DecidableEq

/-- The per-item body of the `for item in data.products` loop of
`create_flash_sale` (lines 74-115): resolve the catalog product, derive
`original_price` and `discount_percentage`, and build the
`FlashSaleProduct` row with `stock_remaining=item.stock_allocated` and
`version=1`.  `none` stands for the two `HTTPException(400)` exits
(product missing / non-positive original price). -/
def create_flash_sale_product (db : DB) (flash_sale_id : String) (new_id : ℤ)
    (item : FlashSaleProductItemCreate) : Option FlashSaleProduct :=
  match db.products.find? (fun p => p.product_id == item.product_id) with
  | none => none
  | some product =>
    let original_price := item.original_price.getD product.current_price
    if original_price ≤ 0 then none
    else
      let discount_percentage :=
        item.discount_percentage.getD ((1 - item.flash_sale_price / original_price) * 100)
      some
        { id := new_id
          flash_sale_id := flash_sale_id
          product_id := item.product_id
          flash_sale_price := item.flash_sale_price
          original_price := original_price
          discount_percentage := discount_percentage
          stock_allocated := item.stock_allocated
          stock_remaining := item.stock_allocated
          max_per_user := item.max_per_user
          version := 1 }

/-- `db.query(FlashSale).filter(FlashSale.flash_sale_id == fsid).first()`. -/
def findSale (db : DB) (flash_sale_id : String) : Option FlashSale :=
  db.flash_sales.find? (fun s => s.flash_sale_id == flash_sale_id)

/-- The composite lookup key of a `FlashSaleProduct` row. -/
def fspKey (flash_sale_id product_id : String) (p : FlashSaleProduct) : Bool :=
  p.flash_sale_id == flash_sale_id && p.product_id == product_id

/-- `get_flash_sale`: look the sale up by `flash_sale_id`; when found,
bump the persisted `visitors` counter (`sale.visitors or 0`, plus one) and
commit before returning the sale. -/
def get_flash_sale (db : DB) (flash_sale_id : String) : DB × Option FlashSale :=
  match findSale db flash_sale_id with
  | none => (db, none)
  | some sale =>
    let sale' := { sale with visitors := some (sale.visitors.getD 0 + 1) }
    ({ db with
        flash_sales :=
          updateFirst (fun s => s.flash_sale_id == flash_sale_id) (fun _ => sale')
            db.flash_sales },
      some sale')

/-- Outcome of a state-transition endpoint. -/
inductive TransitionResult
  | notFound
  | httpError (status_code : ℤ)
  | ok (sale : FlashSale)
  deriving DecidableEq

/-- `activate_flash_sale`: fetch through `get_flash_sale` (which commits a
visitors bump), reject with 400 when `start_time > now` or
`end_time < now`, otherwise write `status = "active"`.  The current status
is never inspected. -/
def activate_flash_sale (db : DB) (flash_sale_id : String) (now : ℚ) :
    DB × TransitionResult :=
  match get_flash_sale db flash_sale_id with
  | (db', none) => (db', .notFound)
  | (db', some flash_sale) =>
    if now < flash_sale.start_time then (db', .httpError 400)
    else if flash_sale.end_time < now then (db', .httpError 400)
    else
      let sale' := { flash_sale with status := "active" }
      ({ db' with
          flash_sales :=
            updateFirst (fun s => s.flash_sale_id == flash_sale_id) (fun _ => sale')
              db'.flash_sales },
        .ok sale')

/-- `end_flash_sale`: unconditionally write `status = "ended"`. -/
def end_flash_sale (db : DB) (flash_sale_id : String) : DB × TransitionResult :=
  match get_flash_sale db flash_sale_id with
  | (db', none) => (db', .notFound)
  | (db', some flash_sale) =>
    let sale' := { flash_sale with status := "ended" }
    ({ db' with
        flash_sales :=
          updateFirst (fun s => s.flash_sale_id == flash_sale_id) (fun _ => sale')
            db'.flash_sales },
      .ok sale')

/-- `cancel_flash_sale`: unconditionally write `status = "cancelled"`. -/
def cancel_flash_sale (db : DB) (flash_sale_id : String) : DB × TransitionResult :=
  match get_flash_sale db flash_sale_id with
  | (db', none) => (db', .notFound)
  | (db', some flash_sale) =>
    let sale' := { flash_sale with status := "cancelled" }
    ({ db' with
        flash_sales :=
          updateFirst (fun s => s.flash_sale_id == flash_sale_id) (fun _ => sale')
            db'.flash_sales },
      .ok sale')

/-- Schema `ValidatePurchaseRequest` (`app/schemas/flash_sale.py`). -/
structure ValidatePurchaseRequest where
  user_id : String
  product_id : String
  quantity : ℤ
  device_fingerprint : Option String
  captcha_token : Option String
  deriving DecidableEq

/-- The distinct reason strings `validate_purchase_request` can append;
`cooling` carries the interpolated remaining-seconds value of
`"Cooling period active. Please wait N seconds"`. -/
inductive Reason
  | saleNotFound
  | saleNotActive
  | notInWindow
  | productNotInSale
  | perUserLimit
  | cooling (wait_seconds : ℤ)
  | captchaFailed
  | ipAbuse
  deriving DecidableEq

/-- Schema `ValidatePurchaseResponse`. -/
structure ValidatePurchaseResponse where
  allowed : Bool
  reasons : List Reason
  limit_remaining : Option ℤ
  cooling_required_seconds : Option ℤ
  deriving DecidableEq

/-- `verify_captcha`: `if not token: return False; return True` — `None`
and the empty string are falsy. -/
def verify_captcha : Option String → Bool
  | none => false
  | some t => !(t == "")

/-- Python `max(orders, key=lambda o: o.purchase_timestamp)`: the first
order holding the maximal timestamp (ties keep the earliest element). -/
def lastByTimestamp : List FlashSaleOrder → Option FlashSaleOrder
  | [] => none
  | o :: rest =>
    match lastByTimestamp rest with
    | none => some o
    | some m => if m.purchase_timestamp > o.purchase_timestamp then some m else some o

/-- The confirmed orders of `user_id` for `product_id` in the sale
(step 3 of `validate_purchase_request`). -/
def userOrders (db : DB) (flash_sale_id product_id user_id : String) :
    List FlashSaleOrder :=
  db.orders.filter (fun o =>
    o.flash_sale_id == flash_sale_id && o.product_id == product_id &&
    o.user_id == user_id && o.status == "confirmed")

/-- Step 6 of `validate_purchase_request`: the number of confirmed order
ROWS for this `(flash_sale_id, product_id)` from `client_ip` whose
`user_id` differs from the requester.  Note this counts orders, not
distinct users. -/
def otherUsersSameIpCount (db : DB) (flash_sale_id product_id user_id ip : String) : ℕ :=
  (db.orders.filter (fun o =>
    o.flash_sale_id == flash_sale_id && o.product_id == product_id &&
    o.client_ip == some ip && !(o.user_id == user_id) &&
    o.status == "confirmed")).length

/-- `validate_purchase_request` (read-only; `now = datetime.utcnow()`).
Reasons accumulate in source order: sale status / time window, product
membership, per-user limit, cooling period, captcha, IP heuristic. -/
def validate_purchase_request (db : DB) (flash_sale_id : String)
    (data : ValidatePurchaseRequest) (client_ip : Option String) (now : ℚ) :
    ValidatePurchaseResponse :=
  match findSale db flash_sale_id with
  | none =>
    { allowed := false, reasons := [.saleNotFound]
      limit_remaining := none, cooling_required_seconds := none }
  | some flash_sale =>
    let reasons1 : List Reason :=
      (if flash_sale.status == "active" then [] else [.saleNotActive]) ++
      (if flash_sale.start_time ≤ now ∧ now ≤ flash_sale.end_time then []
       else [.notInWindow])
    match db.flash_sale_products.find?
        (fspKey flash_sale.flash_sale_id data.product_id) with
    | none =>
      { allowed := false, reasons := reasons1 ++ [.productNotInSale]
        limit_remaining := none, cooling_required_seconds := none }
    | some fs_product =>
      let orders := userOrders db flash_sale.flash_sale_id data.product_id data.user_id
      let total_prev := (orders.map (fun o => o.quantity)).sum
      let limit_remaining := max (fs_product.max_per_user - total_prev) 0
      let reasons2 := reasons1 ++
        (if limit_remaining < data.quantity then [.perUserLimit] else [])
      let reasons3 := reasons2 ++
        (match lastByTimestamp orders with
         | none => []
         | some last_order =>
           let diff := now - last_order.purchase_timestamp
           if diff < (COOLING_PERIOD_SECONDS : ℚ) then
             [.cooling (COOLING_PERIOD_SECONDS - pyTrunc diff)]
           else [])
      let reasons4 := reasons3 ++
        (if verify_captcha data.captcha_token then [] else [.captchaFailed])
      let reasons5 := reasons4 ++
        (match client_ip with
         | none => []
         | some ip =>
           -- `if client_ip:` — the empty string is falsy and skips the check
           if ip == "" then []
           else if 5 ≤ otherUsersSameIpCount db flash_sale.flash_sale_id
                       data.product_id data.user_id ip then [.ipAbuse]
           else [])
      { allowed := reasons5.isEmpty
        reasons := reasons5
        limit_remaining := some limit_remaining
        cooling_required_seconds :=
          if reasons5.any (fun r => match r with | .cooling _ => true | _ => false)
          then some COOLING_PERIOD_SECONDS else none }

/-- Schema `FlashSalePurchaseRequest`. -/
structure FlashSalePurchaseRequest where
  user_id : String
  product_id : String
  quantity : ℤ
  payment_method : String
  device_fingerprint : Option String
  captcha_token : Option String
  deriving DecidableEq

/-- The distinguishable terminations of `purchase_in_flash_sale`. -/
inductive PurchaseResult
  | blocked (reasons : List Reason)          -- 400: validation not allowed
  | invalidQuantity                          -- 400: quantity <= 0
  | productNotFound                          -- 404: product not part of sale
  | localLimitExceeded                       -- 403: process-local guard
  | insufficientStock (remaining : ℤ)        -- 409: conditional update missed
  | persistenceFailure                       -- 500: commit failed, rolled back
  | ok (order : FlashSaleOrder)
  deriving DecidableEq

/-- The conditional `UPDATE` issued by the reservation step (lines
267-281):
`UPDATE flash_sale_products SET stock_remaining = stock_remaining - qty,
version = version + 1 WHERE id = fs_id AND stock_remaining >= qty`.
Returns the updated table and the statement's `rowcount`.  The `WHERE`
clause guards on the stock level only; no version value appears in it. -/
def reserve_stock_update (rows : List FlashSaleProduct) (fs_id : ℤ) (qty : ℤ) :
    List FlashSaleProduct × ℕ :=
  (rows.map (fun p =>
      if p.id == fs_id && qty ≤ p.stock_remaining then
        { p with stock_remaining := p.stock_remaining - qty, version := p.version + 1 }
      else p),
   (rows.filter (fun p => p.id == fs_id && qty ≤ p.stock_remaining)).length)

/-- Modelled from the spec (for comparison with `reserve_stock_update`):
"atomically checks `stock_remaining >= quantity` and `version` unchanged,
then decrements stock_remaining by quantity and increments version, in a
single conditional update" — a compare-and-swap whose guard also requires
the row's `version` to equal the previously read `read_version`. -/
def reserve_stock_update_claimed (rows : List FlashSaleProduct) (fs_id : ℤ)
    (qty : ℤ) (read_version : ℤ) : List FlashSaleProduct × ℕ :=
  (rows.map (fun p =>
      if p.id == fs_id && qty ≤ p.stock_remaining && p.version == read_version then
        { p with stock_remaining := p.stock_remaining - qty, version := p.version + 1 }
      else p),
   (rows.filter (fun p =>
      p.id == fs_id && qty ≤ p.stock_remaining && p.version == read_version)).length)

/-- The `ValidatePurchaseRequest` that `purchase_in_flash_sale` builds from
its own request body. -/
def toValidateReq (r : FlashSalePurchaseRequest) : ValidatePurchaseRequest :=
  { user_id := r.user_id, product_id := r.product_id, quantity := r.quantity
    device_fingerprint := r.device_fingerprint, captcha_token := r.captcha_token }

/-- `purchase_in_flash_sale`.  `now` is the sampled `datetime.utcnow()`,
`new_order_id` the freshly generated order id, and `commit_ok` whether the
final `db.commit()` succeeds (on failure the session rolls back and the
call raises 500, leaving the database untouched).  Every exit before the
commit also leaves the database untouched: the only statements executed
earlier in the transaction are the conditional update (a no-op when its
guard misses) and the order insert, and an exception discards the
uncommitted session. -/
def purchase_in_flash_sale (db : DB) (locals : LocalCounts) (flash_sale_id : String)
    (request : FlashSalePurchaseRequest) (client_ip : Option String)
    (require_max_per_user_check : Bool) (now : ℚ) (new_order_id : String)
    (commit_ok : Bool) : DB × LocalCounts × PurchaseResult :=
  let validation := validate_purchase_request db flash_sale_id
    (toValidateReq request) client_ip now
  if !validation.allowed then (db, locals, .blocked validation.reasons)
  else
    let qty := request.quantity
    if qty ≤ 0 then (db, locals, .invalidQuantity)
    else
      match db.flash_sale_products.find? (fspKey flash_sale_id request.product_id) with
      | none => (db, locals, .productNotFound)
      | some row =>
        -- stock_remaining = int(row.stock_remaining or 0): `x or 0` is the
        -- identity on integers.  The row's version is read here but never
        -- used by the conditional update below.
        let sale_price := row.flash_sale_price
        -- original_price = float(row.original_price or sale_price): a zero
        -- stored price is falsy and falls back to the sale price
        let original_price := if row.original_price = 0 then sale_price else row.original_price
        let local_prev := localGet locals (request.user_id, flash_sale_id, request.product_id)
        if require_max_per_user_check ∧ row.max_per_user < local_prev + qty then
          (db, locals, .localLimitExceeded)
        else
          let upd := reserve_stock_update db.flash_sale_products row.id qty
          if upd.2 ≠ 1 then
            -- 409: re-read stock_remaining (scalar_one_or_none over the
            -- in-transaction state; `int(fresh or 0)`)
            let fresh := ((upd.1.find? (fun p => p.id == row.id)).map
              (fun p => p.stock_remaining)).getD 0
            (db, locals, .insufficientStock fresh)
          else
            let total_price := sale_price * (qty : ℚ)
            let savings := original_price * (qty : ℚ) - total_price
            let new_order : FlashSaleOrder :=
              { order_id := new_order_id
                flash_sale_id := flash_sale_id
                product_id := request.product_id
                user_id := request.user_id
                quantity := qty
                flash_sale_price := sale_price
                total_price := total_price
                savings := savings
                status := "confirmed"
                payment_method := some request.payment_method
                client_ip := client_ip
                device_fingerprint := request.device_fingerprint
                purchase_timestamp := now }
            if commit_ok then
              ({ db with flash_sale_products := upd.1, orders := db.orders ++ [new_order] },
               localInc locals (request.user_id, flash_sale_id, request.product_id) qty,
               .ok new_order)
            else (db, locals, .persistenceFailure)

/-! ## Product service (`app/services/product_service.py`) -/

/-- Schema `ProductUpdate` (`app/schemas/product.py`): every field of
`ProductBase` is required, so `data.dict()` always carries all of them. -/
structure ProductUpdate where
  name : String
  category : String
  base_price : ℚ
  current_price : ℚ
  cost_price : ℚ
  min_allowed_price : ℚ
  currency : String
  stock_quantity : ℤ
  pricing_tier : String
  deriving DecidableEq

/-- `record_price_change`: append a `PriceHistory` row. -/
def record_price_change (product_id price_type : String) (old_price new_price : ℚ) :
    PriceHistoryRec :=
  { product_id := product_id, price_type := price_type
    old_price := old_price, new_price := new_price }

/-- `update_product`: set every field of the request on the product as
given (no clamping anywhere), recording a history row for each price field
whose value changed.  History rows follow the schema's field order
(base, current, cost, min_allowed). -/
def update_product (db : DB) (product_id : String) (data : ProductUpdate) :
    DB × Option Product :=
  match db.products.find? (fun p => p.product_id == product_id) with
  | none => (db, none)
  | some product =>
    let hist : List PriceHistoryRec :=
      (if product.base_price = data.base_price then []
       else [record_price_change product_id "base_price" product.base_price data.base_price]) ++
      (if product.current_price = data.current_price then []
       else [record_price_change product_id "current_price" product.current_price data.current_price]) ++
      (if product.cost_price = data.cost_price then []
       else [record_price_change product_id "cost_price" product.cost_price data.cost_price]) ++
      (if product.min_allowed_price = data.min_allowed_price then []
       else [record_price_change product_id "min_allowed_price" product.min_allowed_price data.min_allowed_price])
    let product' : Product :=
      { product with
        name := data.name, category := data.category
        base_price := data.base_price, current_price := data.current_price
        cost_price := data.cost_price, min_allowed_price := data.min_allowed_price
        currency := data.currency, stock_quantity := data.stock_quantity
        pricing_tier := data.pricing_tier }
    ({ db with
        products := updateFirst (fun p => p.product_id == product_id)
          (fun _ => product') db.products
        price_history := db.price_history ++ hist },
      some product')

/-- `update_base_price`: clamp the new base price to `min_allowed_price`
(`max(new_base_price, product.min_allowed_price)`), always record a
base-price history row, and when `sync_current_price` also raise
`current_price` to the clamped base (recording a row only on change). -/
def update_base_price (db : DB) (product_id : String) (new_base_price : ℚ)
    (sync_current_price : Bool) : DB × Option Product :=
  match db.products.find? (fun p => p.product_id == product_id) with
  | none => (db, none)
  | some product =>
    let final_base_price := max new_base_price product.min_allowed_price
    let hist1 := [record_price_change product_id "base_price" product.base_price final_base_price]
    let p1 := { product with base_price := final_base_price }
    let step2 : Product × List PriceHistoryRec :=
      if sync_current_price then
        let final_current_price := max final_base_price product.min_allowed_price
        if final_current_price = product.current_price then (p1, [])
        else
          ({ p1 with current_price := final_current_price },
           [record_price_change product_id "current_price" product.current_price final_current_price])
      else (p1, [])
    ({ db with
        products := updateFirst (fun p => p.product_id == product_id)
          (fun _ => step2.1) db.products
        price_history := db.price_history ++ hist1 ++ step2.2 },
      some step2.1)

/-- One item of `BulkPriceUpdateRequest`. -/
structure BulkPriceUpdateItem where
  product_id : String
  new_price : ℚ
  deriving DecidableEq

/-- Per-item outcome entry of `bulk_update_prices`. -/
structure BulkResultEntry where
  product_id : String
  status : String          -- "not_found" | "updated"
  old_price : Option ℚ
  requested_price : Option ℚ
  final_applied_price : Option ℚ
  deriving DecidableEq

/-- `bulk_update_prices`: for each item, clamp the requested price to the
product's `min_allowed_price` (`max(item.new_price, min_allowed_price)`)
and write it to `current_price`, recording history on change.  The single
final commit is kept implicit: the claims about this function concern the
written values. -/
def bulk_update_prices (db : DB) : List BulkPriceUpdateItem → DB × List BulkResultEntry
  | [] => (db, [])
  | item :: rest =>
    match db.products.find? (fun p => p.product_id == item.product_id) with
    | none =>
      let (db', res) := bulk_update_prices db rest
      (db', { product_id := item.product_id, status := "not_found"
              old_price := none, requested_price := none
              final_applied_price := none } :: res)
    | some product =>
      let old_price := product.current_price
      let applied_price := max item.new_price product.min_allowed_price
      let hist : List PriceHistoryRec :=
        if applied_price = old_price then []
        else [record_price_change item.product_id "current_price" old_price applied_price]
      let product' := { product with current_price := applied_price }
      let db1 : DB :=
        { db with
          products := updateFirst (fun p => p.product_id == item.product_id)
            (fun _ => product') db.products
          price_history := db.price_history ++ hist }
      let (db', res) := bulk_update_prices db1 rest
      (db', { product_id := item.product_id, status := "updated"
              old_price := some old_price, requested_price := some item.new_price
              final_applied_price := some applied_price } :: res)

/-! ## Pricing engine (`app/services/pricing_service/calculate_price.py`)

The 60-second TTL caches (`_RULE_CACHE`, `_FLASH_SALE_CACHE`) are omitted:
a cache hit replays the result an identical query produced at most 60
seconds earlier, so every cached value is the value of the embedded query
at some recent database state. -/

/-- The current time as the time-based discount check observes it:
`datetime.utcnow()` for `valid_from`/`valid_until`, `now.strftime("%A")`
for the weekday name, and `now.time()` as seconds since midnight. -/
structure PyNow where
  t : ℚ
  weekday_name : String
  time_of_day : ℚ
  deriving DecidableEq

/-- `[int(p) for p in s.split(":")]`, `none` when some part is not an
integer literal (Python `int(p)` raises, caught by the `except`). -/
def parseIntParts (s : String) : Option (List ℤ) :=
  (s.splitOn ":").foldr
    (fun p acc =>
      match p.toInt?, acc with
      | some n, some l => some (n :: l)
      | _, _ => none)
    (some [])

/-- `datetime.time(*parts)` as seconds since midnight: defined for one to
four in-range arguments (hour, minute, second, microsecond), `none`
(a raised exception) otherwise. -/
def pyTimeHMS (h m s us : ℤ) : Option ℚ :=
  if 0 ≤ h ∧ h < 24 ∧ 0 ≤ m ∧ m < 60 ∧ 0 ≤ s ∧ s < 60 ∧ 0 ≤ us ∧ us < 1000000 then
    some (((h * 3600 + m * 60 + s : ℤ) : ℚ) + (us : ℚ) / 1000000)
  else none

/-- `datetime.time(*parts)`: one to four positional arguments. -/
def pyTimeOfParts : List ℤ → Option ℚ
  | [h] => pyTimeHMS h 0 0 0
  | [h, m] => pyTimeHMS h m 0 0
  | [h, m, s] => pyTimeHMS h m s 0
  | [h, m, s, us] => pyTimeHMS h m s us
  | _ => none

/-- `time(*[int(p) for p in str.split(":")])` with failure as `none`. -/
def parseTimeOfDay (s : String) : Option ℚ :=
  (parseIntParts s).bind pyTimeOfParts

/-- The `quantity_based` tier scan: the first tier whose `min_quantity` is
set and `min_quantity ≤ quantity` and (`max_quantity` unset or
`quantity ≤ max_quantity`) supplies its `discount_percentage or 0`. -/
def quantityTierDiscount (quantity : ℤ) : List RuleTier → ℚ
  | [] => 0
  | tier :: rest =>
    match tier.min_quantity with
    | none => quantityTierDiscount quantity rest
    | some min_q =>
      if quantity < min_q then quantityTierDiscount quantity rest
      else
        match tier.max_quantity with
        | some max_q =>
          if max_q < quantity then quantityTierDiscount quantity rest
          else tier.discount_percentage.getD 0
        | none => tier.discount_percentage.getD 0

/-- `_calculate_discount`: the discount percentage a rule yields for the
given context. -/
def _calculate_discount (rule : PricingRule) (quantity : ℤ)
    (user_tier : Option String) (cart_value : ℚ) (now : PyNow) : ℚ :=
  if rule.type == "time_based" then
    if (match rule.valid_from with
        | some vf => decide (now.t < vf)
        | none => false) then 0
    else if (match rule.valid_until with
        | some vu => decide (vu < now.t)
        | none => false) then 0
    else
      -- schedule = rule.schedule or {}
      let schedule := rule.schedule.getD ⟨none, none, none⟩
      -- schedule.get("days_of_week") or []
      let days_of_week := schedule.days_of_week.getD []
      -- schedule.get("start_time") or "00:00:00" (empty string is falsy)
      let start_time_str :=
        match schedule.start_time with
        | some s => if s == "" then "00:00:00" else s
        | none => "00:00:00"
      let end_time_str :=
        match schedule.end_time with
        | some s => if s == "" then "23:59:59" else s
        | none => "23:59:59"
      if days_of_week ≠ [] ∧ now.weekday_name ∉ days_of_week then 0
      else
        match parseTimeOfDay start_time_str, parseTimeOfDay end_time_str with
        | some start_t, some end_t =>
          if ¬(start_t ≤ now.time_of_day ∧ now.time_of_day ≤ end_t) then 0
          else if rule.discount_type == some "percentage" then rule.discount_value.getD 0
          else 0
        | _, _ =>
          -- try/except around the parse: a malformed time string skips the
          -- intra-day restriction instead of failing the rule
          if rule.discount_type == some "percentage" then rule.discount_value.getD 0
          else 0
  else if rule.type == "quantity_based" then
    quantityTierDiscount quantity rule.tiers
  else if rule.type == "user_tier" then
    match user_tier with
    | some ut => if ut ≠ "" ∧ ut ∈ rule.user_tiers then rule.discount_value.getD 0 else 0
    | none => 0
  else if rule.type == "cart_threshold" then
    if rule.min_cart_value.getD 0 ≤ cart_value then rule.discount_value.getD 0 else 0
  else 0

/-- `_apply_discount`: `price * (1 - discount_percentage / 100)`. -/
def _apply_discount (price : ℚ) (discount_percentage : ℚ) : ℚ :=
  price * (1 - discount_percentage / 100)

/-- `_get_applicable_rules`: the active rules whose `product_ids` and
`product_categories` filters accept the product (an empty filter accepts
everything), in table order. -/
def _get_applicable_rules (db : DB) (product : Product) : List PricingRule :=
  (db.pricing_rules.filter (fun r => r.status == "active")).filter (fun rule =>
    (rule.product_ids = [] ∨ product.product_id ∈ rule.product_ids) ∧
    (rule.product_categories = [] ∨ product.category ∈ rule.product_categories))

/-- `sorted(active_rules, key=lambda r: r.priority)`: a stable sort by
ascending priority; insertion sort with `≤` keeps equal-priority rules in
their original order, matching Python's stable `sorted`. -/
def sortRulesByPriority (rules : List PricingRule) : List PricingRule :=
  List.insertionSort (fun a b => a.priority ≤ b.priority) rules

/-- The `for rule in sorted_rules` loop of `_calculate_dynamic_price`:
apply each rule whose discount is positive and stop after applying an
exclusive rule. -/
def applyRulesLoop (quantity : ℤ) (user_tier : Option String) (cart_value : ℚ)
    (now : PyNow) : List PricingRule → ℚ → List PricingRule → ℚ × List PricingRule
  | [], price, applied => (price, applied)
  | rule :: rest, price, applied =>
    let discount := _calculate_discount rule quantity user_tier cart_value now
    if 0 < discount then
      let price' := _apply_discount price discount
      let applied' := applied ++ [rule]
      if rule.is_exclusive then (price', applied')
      else applyRulesLoop quantity user_tier cart_value now rest price' applied'
    else applyRulesLoop quantity user_tier cart_value now rest price applied

/-- `_calculate_dynamic_price`: fold the priority-sorted applicable rules
over `base_price` and clamp to `min_allowed_price`. -/
def _calculate_dynamic_price (db : DB) (product : Product) (quantity : ℤ)
    (user_tier : Option String) (now : PyNow) : ℚ × List PricingRule :=
  let cart_value := product.base_price * (quantity : ℚ)
  let active_rules := _get_applicable_rules db product
  let sorted_rules := sortRulesByPriority active_rules
  let res := applyRulesLoop quantity user_tier cart_value now sorted_rules product.base_price []
  (max res.1 product.min_allowed_price, res.2)

/-- The row `_get_active_flash_sale_for_product` selects (a join of
`FlashSaleProduct` and `FlashSale` columns). -/
structure FlashRow where
  flash_sale_id : String
  flash_sale_price : ℚ
  original_price : ℚ
  discount_percentage : ℚ
  stock_remaining : ℤ
  max_per_user : ℤ
  start_time : ℚ
  end_time : ℚ
  status : String
  deriving DecidableEq

/-- `_get_active_flash_sale_for_product`: first `FlashSaleProduct` row for
the product joined with an active `FlashSale` whose window contains `now`
(`status == "active" AND start_time <= now AND end_time >= now`). -/
def _get_active_flash_sale_for_product (db : DB) (product : Product) (now : ℚ) :
    Option FlashRow :=
  (db.flash_sale_products.filterMap (fun fsp =>
    if fsp.product_id == product.product_id then
      match db.flash_sales.find? (fun s =>
          s.flash_sale_id == fsp.flash_sale_id && s.status == "active" &&
          decide (s.start_time ≤ now) && decide (now ≤ s.end_time)) with
      | some sale =>
        some { flash_sale_id := fsp.flash_sale_id
               flash_sale_price := fsp.flash_sale_price
               original_price := fsp.original_price
               discount_percentage := fsp.discount_percentage
               stock_remaining := fsp.stock_remaining
               max_per_user := fsp.max_per_user
               start_time := sale.start_time
               end_time := sale.end_time
               status := sale.status }
      | none => none
    else none)).head?

/-- The quote dictionary `calculate_final_price` returns. -/
structure PriceQuoteResult where
  base_price : ℚ
  min_allowed_price : ℚ
  flash_sale_applied : Bool
  flash_sale_quantity : ℤ
  dynamic_quantity : ℤ
  flash_sale_unit_price : ℚ
  flash_sale_total_price : ℚ
  dynamic_unit_price : ℚ
  dynamic_total_price : ℚ
  unit_final_price : ℚ
  total_final_price : ℚ
  applied_rules : List PricingRule
  deriving DecidableEq

/-- `calculate_final_price`: split the quantity between the active flash
offer (up to `min(quantity, max(stock_remaining, 0), max_per_user)`) and
dynamic pricing for the remainder.  `flash_row.max_per_user is not None`
always holds (the column is `nullable=False`), so `available_by_user` is
always the stored limit. -/
def calculate_final_price (db : DB) (product : Product) (quantity : ℤ)
    (user_tier : Option String) (now : ℚ) (pynow : PyNow) : PriceQuoteResult :=
  let base_price := product.base_price
  let min_price := product.min_allowed_price
  let flash_row := _get_active_flash_sale_for_product db product now
  let flashPart : Bool × ℤ × ℤ × ℚ × ℚ :=
    match flash_row with
    | none => (false, 0, quantity, 0, 0)
    | some row =>
      let available_by_stock := max row.stock_remaining 0
      let available_by_user := row.max_per_user
      let max_flash_units := min quantity (min available_by_stock available_by_user)
      if 0 < max_flash_units then
        (true, max_flash_units, quantity - max_flash_units, row.flash_sale_price,
         row.flash_sale_price * (max_flash_units : ℚ))
      else (false, 0, quantity, 0, 0)
  let flash_sale_applied := flashPart.1
  let flash_qty := flashPart.2.1
  let dyn_qty := flashPart.2.2.1
  let flash_unit_price := flashPart.2.2.2.1
  let flash_total_price := flashPart.2.2.2.2
  let dynPart : ℚ × ℚ × List PricingRule :=
    if 0 < dyn_qty then
      let res := _calculate_dynamic_price db product dyn_qty user_tier pynow
      (res.1, res.1 * (dyn_qty : ℚ), res.2)
    else (base_price, 0, [])
  let total_final_price := flash_total_price + dynPart.2.1
  { base_price := base_price
    min_allowed_price := min_price
    flash_sale_applied := flash_sale_applied
    flash_sale_quantity := flash_qty
    dynamic_quantity := dyn_qty
    flash_sale_unit_price := flash_unit_price
    flash_sale_total_price := flash_total_price
    dynamic_unit_price := dynPart.1
    dynamic_total_price := dynPart.2.1
    unit_final_price := if 0 < quantity then total_final_price / (quantity : ℚ) else 0
    total_final_price := total_final_price
    applied_rules := dynPart.2.2 }

/-! ## Sequences of purchases, invariants, observation helpers -/

/-- The inputs of one `purchase_in_flash_sale` call. -/
structure PurchaseCall where
  flash_sale_id : String
  request : FlashSalePurchaseRequest
  client_ip : Option String
  require_max_per_user_check : Bool
  now : ℚ
  new_order_id : String
  commit_ok : Bool
  deriving DecidableEq

/-- Run a sequence of purchase calls, threading the database and the
process-local counter map, collecting each call's result. -/
def runPurchases : DB → LocalCounts → List PurchaseCall →
    DB × LocalCounts × List PurchaseResult
  | db, ls, [] => (db, ls, [])
  | db, ls, c :: cs =>
    let step := purchase_in_flash_sale db ls c.flash_sale_id c.request c.client_ip
      c.require_max_per_user_check c.now c.new_order_id c.commit_ok
    let rest := runPurchases step.1 step.2.1 cs
    (rest.1, rest.2.1, step.2.2 :: rest.2.2)

/-- The quantity a purchase result successfully reserved against the
`(flash_sale_id, product_id)` key (0 for any failure or another key). -/
def okQtyFor (flash_sale_id product_id : String) : PurchaseResult → ℤ
  | .ok o =>
    if o.flash_sale_id = flash_sale_id ∧ o.product_id = product_id then o.quantity else 0
  | _ => 0

/-- Total successfully reserved quantity of a result sequence for one key. -/
def totalOkQty (flash_sale_id product_id : String) (rs : List PurchaseResult) : ℤ :=
  (rs.map (okQtyFor flash_sale_id product_id)).sum

/-- The stock invariant of the spec:
`0 ≤ stock_remaining ≤ stock_allocated` for every `FlashSaleProduct` row. -/
def StockInv (db : DB) : Prop :=
  ∀ p ∈ db.flash_sale_products, 0 ≤ p.stock_remaining ∧ p.stock_remaining ≤ p.stock_allocated

/-- Primary keys of `flash_sale_products` are distinct (database PK
constraint on `id`). -/
def IdsNodup (db : DB) : Prop :=
  (db.flash_sale_products.map (fun p => p.id)).Nodup

/-- The remaining stock recorded for one `(flash_sale_id, product_id)`
key (0 when no row exists). -/
def stockOf (db : DB) (flash_sale_id product_id : String) : ℤ :=
  ((db.flash_sale_products.find? (fspKey flash_sale_id product_id)).map
    (fun p => p.stock_remaining)).getD 0

/-- The status of the (first) sale with the given id, when present. -/
def statusAfter (db : DB) (flash_sale_id : String) : Option String :=
  (findSale db flash_sale_id).map (fun s => s.status)

/-- The visitors counter of the (first) sale with the given id. -/
def visitorsAfter (db : DB) (flash_sale_id : String) : Option (Option ℤ) :=
  (findSale db flash_sale_id).map (fun s => s.visitors)

/-! ## Concrete fixtures used by counterexamples and witnesses -/

/-- A catalog product: base 100, floor price 50. -/
def prodP1 : Product :=
  { product_id := "P1", name := "Widget", category := "gadgets"
    base_price := 100, current_price := 100, cost_price := 40
    min_allowed_price := 50, currency := "USD", stock_quantity := 1000
    pricing_tier := "standard" }

/-- An active flash sale with window `[0, 1000]`. -/
def saleFS1 : FlashSale :=
  { flash_sale_id := "FS1", name := "Sale", start_time := 0, end_time := 1000
    status := "active", visibility := "public", visitors := some 0 }

/-- Flash-sale offer on `P1`: price 40, stock 3, limit 10 per user. -/
def fspRow : FlashSaleProduct :=
  { id := 1, flash_sale_id := "FS1", product_id := "P1", flash_sale_price := 40
    original_price := 100, discount_percentage := 60, stock_allocated := 3
    stock_remaining := 3, max_per_user := 10, version := 1 }

/-- A confirmed order on `(FS1, P1)` from IP 9.9.9.9. -/
def mkOrder (order_id user_id : String) (ts : ℚ) : FlashSaleOrder :=
  { order_id := order_id, flash_sale_id := "FS1", product_id := "P1"
    user_id := user_id, quantity := 1, flash_sale_price := 40, total_price := 40
    savings := 60, status := "confirmed", payment_method := some "card"
    client_ip := some "9.9.9.9", device_fingerprint := none
    purchase_timestamp := ts }

/-- Database with five confirmed orders, all by the single user `u2`,
from the same IP. -/
def dbC6 : DB :=
  { products := [prodP1], flash_sales := [saleFS1], flash_sale_products := [fspRow]
    orders := [mkOrder "O1" "u2" 10, mkOrder "O2" "u2" 11, mkOrder "O3" "u2" 12,
               mkOrder "O4" "u2" 13, mkOrder "O5" "u2" 14]
    pricing_rules := [], price_history := [] }

/-- A validate request by `u1` with a captcha token. -/
def dataU1 : ValidatePurchaseRequest :=
  { user_id := "u1", product_id := "P1", quantity := 1
    device_fingerprint := none, captcha_token := some "tok" }

/-- A cancelled sale (same id `FS1`). -/
def saleCancelled : FlashSale := { saleFS1 with status := "cancelled" }

/-- Database holding only the cancelled sale. -/
def dbC5 : DB :=
  { products := [], flash_sales := [saleCancelled], flash_sale_products := []
    orders := [], pricing_rules := [], price_history := [] }

/-- An exclusive 20% `user_tier` rule at priority 1. -/
def rule20 : PricingRule :=
  { rule_id := "R20", type := "user_tier", name := "r20"
    product_ids := [], product_categories := [], discount_type := some "percentage"
    discount_value := some 20, tiers := [], user_tiers := ["gold"], min_cart_value := none
    schedule := none, priority := 1, status := "active", is_exclusive := true
    valid_from := none, valid_until := none }

/-- A non-exclusive 10% `user_tier` rule at priority 2. -/
def rule10 : PricingRule :=
  { rule20 with
    rule_id := "R10"
    discount_value := some 10
    priority := 2
    is_exclusive := false }

/-- A fixed evaluation time for the rule engine. -/
def pynow0 : PyNow := { t := 500, weekday_name := "Monday", time_of_day := 36000 }

/-- Database with the two rules of the exclusive-short-circuit scenario
(stored in reverse priority order to exercise the sort). -/
def dbC8 : DB :=
  { products := [prodP1], flash_sales := [], flash_sale_products := []
    orders := [], pricing_rules := [rule10, rule20], price_history := [] }

/-- Database with the active `FS1` offer on `P1` and no pricing rules. -/
def dbC7 : DB :=
  { products := [prodP1], flash_sales := [saleFS1], flash_sale_products := [fspRow]
    orders := [], pricing_rules := [], price_history := [] }

/-- The `FlashRow` the active-offer lookup yields on `dbC7`. -/
def flashRowEx : FlashRow :=
  { flash_sale_id := "FS1", flash_sale_price := 40, original_price := 100
    discount_percentage := 60, stock_remaining := 3, max_per_user := 10
    start_time := 0, end_time := 1000, status := "active" }

/-- The offer row with `version = 2` (a concurrent writer has bumped it
after it was read at version 1). -/
def rowV2 : FlashSaleProduct := { fspRow with version := 2, stock_remaining := 5 }

/-- A product-update request asking for `base_price = 10`, far below the
floor price 50. -/
def updC4 : ProductUpdate :=
  { name := "Widget", category := "gadgets", base_price := 10, current_price := 100
    cost_price := 40, min_allowed_price := 50, currency := "USD"
    stock_quantity := 1000, pricing_tier := "standard" }

/-- Catalog database holding only `P1`. -/
def dbC4 : DB :=
  { products := [prodP1], flash_sales := [], flash_sale_products := []
    orders := [], pricing_rules := [], price_history := [] }

/-- A purchase request by `u1` for two units of `P1`. -/
def reqU1 : FlashSalePurchaseRequest :=
  { user_id := "u1", product_id := "P1", quantity := 2, payment_method := "card"
    device_fingerprint := none, captcha_token := some "tok" }

/-! ## Generic list lemmas -/

theorem find?_map_of_inv {α : Type} (g : α → α) (p : α → Bool)
    (hp : ∀ a, p (g a) = p a) :
    ∀ l : List α, (l.map g).find? p = (l.find? p).map g := by
  intro l
  induction l with
  | nil => simp
  | cons x xs ih =>
    by_cases hx : p x = true
    · rw [List.map_cons, List.find?_cons_of_pos _ ((hp x).trans hx),
        List.find?_cons_of_pos _ hx, Option.map_some']
    · rw [List.map_cons, List.find?_cons_of_neg _ (by simp [hp x, hx]),
        List.find?_cons_of_neg _ (by simp [hx]), ih]

theorem find?_updateFirst {α : Type} (p : α → Bool) (f : α → α) :
    ∀ (l : List α) (a : α), l.find? p = some a → p (f a) = true →
      (updateFirst p f l).find? p = some (f a) := by
  intro l
  induction l with
  | nil => intro a h _; simp at h
  | cons x xs ih =>
    intro a h hf
    by_cases hx : p x = true
    · rw [List.find?_cons_of_pos _ hx, Option.some_inj] at h
      subst h
      rw [updateFirst, if_pos hx, List.find?_cons_of_pos _ hf]
    · rw [List.find?_cons_of_neg _ (by simp [hx])] at h
      rw [updateFirst, if_neg (by simp [hx]), List.find?_cons_of_neg _ (by simp [hx])]
      exact ih a h hf

theorem mem_updateFirst {α : Type} (p : α → Bool) (f : α → α) :
    ∀ (l : List α) (b : α), b ∈ updateFirst p f l →
      b ∈ l ∨ ∃ a ∈ l, p a = true ∧ b = f a := by
  intro l
  induction l with
  | nil => intro b h; simp [updateFirst] at h
  | cons x xs ih =>
    intro b h
    rw [updateFirst] at h
    by_cases hx : p x = true
    · rw [if_pos hx] at h
      rcases List.mem_cons.mp h with h1 | h1
      · exact Or.inr ⟨x, List.mem_cons_self x xs, hx, h1⟩
      · exact Or.inl (List.mem_cons_of_mem x h1)
    · rw [if_neg hx] at h
      rcases List.mem_cons.mp h with h1 | h1
      · exact Or.inl (h1 ▸ List.mem_cons_self x xs)
      · rcases ih b h1 with h2 | ⟨a, ha, hpa, hb⟩
        · exact Or.inl (List.mem_cons_of_mem x h2)
        · exact Or.inr ⟨a, List.mem_cons_of_mem x ha, hpa, hb⟩

theorem eq_singleton_of_nodup_of_all_eq {α : Type} {l : List α} (hnd : l.Nodup)
    (a : α) (ha : a ∈ l) (hall : ∀ b ∈ l, b = a) : l = [a] := by
  match l, ha with
  | x :: t, _ =>
    have hx : x = a := hall x (List.mem_cons_self x t)
    subst hx
    have ht : t = [] := by
      cases t with
      | nil => rfl
      | cons y t' =>
        exfalso
        have hy : y = x := hall y (List.mem_cons_of_mem x (List.mem_cons_self y t'))
        exact (List.nodup_cons.mp hnd).1 (hy ▸ List.mem_cons_self y t')
    rw [ht]

/-! ## Lemmas about the conditional stock update -/

/-- The per-row effect of the conditional `UPDATE`. -/
def reserveApply (fs_id qty : ℤ) (p : FlashSaleProduct) : FlashSaleProduct :=
  if p.id == fs_id && qty ≤ p.stock_remaining then
    { p with stock_remaining := p.stock_remaining - qty, version := p.version + 1 }
  else p

theorem reserve_stock_update_fst (rows : List FlashSaleProduct) (fs_id qty : ℤ) :
    (reserve_stock_update rows fs_id qty).1 = rows.map (reserveApply fs_id qty) := rfl

theorem reserveApply_key (fs_id qty : ℤ) (fsid pid : String) (p : FlashSaleProduct) :
    fspKey fsid pid (reserveApply fs_id qty p) = fspKey fsid pid p := by
  unfold reserveApply fspKey
  split <;> rfl

theorem reserveApply_id (fs_id qty : ℤ) (p : FlashSaleProduct) :
    (reserveApply fs_id qty p).id = p.id := by
  unfold reserveApply
  split <;> rfl

/-- The conditional update commutes with `find?` on a composite key. -/
theorem reserve_find? (rows : List FlashSaleProduct) (fs_id qty : ℤ)
    (fsid pid : String) :
    (reserve_stock_update rows fs_id qty).1.find? (fspKey fsid pid)
      = (rows.find? (fspKey fsid pid)).map (reserveApply fs_id qty) := by
  rw [reserve_stock_update_fst]
  exact find?_map_of_inv _ _ (reserveApply_key fs_id qty fsid pid) rows

/-- The conditional update leaves the `id` column of every row intact. -/
theorem reserve_ids (rows : List FlashSaleProduct) (fs_id qty : ℤ) :
    (reserve_stock_update rows fs_id qty).1.map (fun p => p.id) = rows.map (fun p => p.id) := by
  rw [reserve_stock_update_fst, List.map_map]
  exact List.map_congr_left (fun p _ => reserveApply_id fs_id qty p)

/-- The conditional update preserves the stock invariant of every row as
long as the reserved quantity is positive: a decremented row stays within
`[0, stock_allocated]` because its guard required `qty ≤ stock_remaining`. -/
theorem reserve_inv (rows : List FlashSaleProduct) (fs_id qty : ℤ) (hq : 0 < qty)
    (h : ∀ p ∈ rows, 0 ≤ p.stock_remaining ∧ p.stock_remaining ≤ p.stock_allocated) :
    ∀ p' ∈ (reserve_stock_update rows fs_id qty).1,
      0 ≤ p'.stock_remaining ∧ p'.stock_remaining ≤ p'.stock_allocated := by
  rw [reserve_stock_update_fst]
  intro p' hp'
  rcases List.mem_map.mp hp' with ⟨p, hp, rfl⟩
  rcases h p hp with ⟨h0, h1⟩
  unfold reserveApply
  split
  · rename_i hguard
    have hle : qty ≤ p.stock_remaining := by
      have := (Bool.and_eq_true _ _).mp hguard
      exact of_decide_eq_true this.2
    constructor
    · simp only []
      omega
    · simp only []
      omega
  · exact ⟨h0, h1⟩

/-- With distinct primary keys, the `rowcount` of the conditional update
targeting the `id` of a row present in the table is 1 exactly when that
row has enough stock, and 0 otherwise. -/
theorem reserve_rowcount (rows : List FlashSaleProduct) (row : FlashSaleProduct)
    (qty : ℤ) (hnd : (rows.map (fun p => p.id)).Nodup) (hmem : row ∈ rows) :
    (reserve_stock_update rows row.id qty).2
      = if qty ≤ row.stock_remaining then 1 else 0 := by
  have hinj := List.inj_on_of_nodup_map hnd
  have hall : ∀ b ∈ rows.filter (fun p => p.id == row.id && qty ≤ p.stock_remaining),
      b = row := by
    intro b hb
    have hb' := List.mem_filter.mp hb
    have hid : b.id = row.id := by
      have := (Bool.and_eq_true _ _).mp hb'.2
      exact eq_of_beq this.1
    exact hinj hb'.1 hmem hid
  by_cases hle : qty ≤ row.stock_remaining
  · rw [if_pos hle]
    have hrowmem : row ∈ rows.filter (fun p => p.id == row.id && qty ≤ p.stock_remaining) :=
      List.mem_filter.mpr ⟨hmem, by simp [hle]⟩
    have hndf : (rows.filter (fun p => p.id == row.id && qty ≤ p.stock_remaining)).Nodup :=
      (hnd.of_map _).filter _
    have := eq_singleton_of_nodup_of_all_eq hndf row hrowmem hall
    simp [reserve_stock_update, this]
  · rw [if_neg hle]
    have : rows.filter (fun p => p.id == row.id && qty ≤ p.stock_remaining) = [] := by
      rcases hcase : rows.filter (fun p => p.id == row.id && qty ≤ p.stock_remaining) with
        _ | ⟨b, t⟩
      · exact hcase
      · exfalso
        have hb : b ∈ rows.filter (fun p => p.id == row.id && qty ≤ p.stock_remaining) := by
          rw [hcase]; exact List.mem_cons_self b t
        have hbrow := hall b hb
        have hb' := List.mem_filter.mp hb
        have := (Bool.and_eq_true _ _).mp hb'.2
        exact hle (hbrow ▸ of_decide_eq_true this.2)
    simp [reserve_stock_update, this]

/-- When the guard misses the addressed row (and keys are distinct), the
conditional update is the identity on the table. -/
theorem reserve_noop (rows : List FlashSaleProduct) (row : FlashSaleProduct) (qty : ℤ)
    (hnd : (rows.map (fun p => p.id)).Nodup) (hmem : row ∈ rows)
    (hlt : ¬ qty ≤ row.stock_remaining) :
    (reserve_stock_update rows row.id qty).1 = rows := by
  have hinj := List.inj_on_of_nodup_map hnd
  rw [reserve_stock_update_fst]
  have : ∀ p ∈ rows, reserveApply row.id qty p = p := by
    intro p hp
    unfold reserveApply
    split
    · rename_i hguard
      exfalso
      have hg := (Bool.and_eq_true _ _).mp hguard
      have hid : p.id = row.id := eq_of_beq hg.1
      have : p = row := hinj hp hmem hid
      exact hlt (this ▸ of_decide_eq_true hg.2)
    · rfl
  calc rows.map (reserveApply row.id qty) = rows.map id := List.map_congr_left this
    _ = rows := List.map_id rows

/-- Case analysis of one `purchase_in_flash_sale` call: either it fails
and leaves the database exactly as it was, or it succeeds and installs, in
one commit, the conditional stock decrement (rowcount 1) together with the
appended confirmed order for the same key and quantity. -/
theorem purchase_spec (db : DB) (ls : LocalCounts) (fsid : String)
    (req : FlashSalePurchaseRequest) (ip : Option String) (rmc : Bool) (now : ℚ)
    (oid : String) (cok : Bool) :
    ((purchase_in_flash_sale db ls fsid req ip rmc now oid cok).1 = db ∧
      ∀ o, (purchase_in_flash_sale db ls fsid req ip rmc now oid cok).2.2 ≠ .ok o) ∨
    (∃ row o,
      db.flash_sale_products.find? (fspKey fsid req.product_id) = some row ∧
      (purchase_in_flash_sale db ls fsid req ip rmc now oid cok).2.2 = .ok o ∧
      0 < o.quantity ∧ o.quantity = req.quantity ∧
      o.flash_sale_id = fsid ∧ o.product_id = req.product_id ∧
      (reserve_stock_update db.flash_sale_products row.id o.quantity).2 = 1 ∧
      (purchase_in_flash_sale db ls fsid req ip rmc now oid cok).1 =
        { db with
          flash_sale_products :=
            (reserve_stock_update db.flash_sale_products row.id o.quantity).1
          orders := db.orders ++ [o] }) := by
  simp only [purchase_in_flash_sale]
  split
  · exact Or.inl ⟨rfl, fun o h => by cases h⟩
  · split
    · exact Or.inl ⟨rfl, fun o h => by cases h⟩
    · rename_i hqpos
      split
      · exact Or.inl ⟨rfl, fun o h => by cases h⟩
      · rename_i row hrow
        split
        · exact Or.inl ⟨rfl, fun o h => by cases h⟩
        · split
          · exact Or.inl ⟨rfl, fun o h => by cases h⟩
          · rename_i hrc
            have hrc' : (reserve_stock_update db.flash_sale_products row.id req.quantity).2 = 1 :=
              not_not.mp hrc
            split
            · rename_i hcok
              refine Or.inr ⟨row, _, hrow, rfl, ?_, rfl, rfl, rfl, hrc', rfl⟩
              simpa using (by omega : 0 < req.quantity)
            · exact Or.inl ⟨rfl, fun o h => by cases h⟩

theorem fspKey_eq_true {fsid pid : String} {p : FlashSaleProduct} :
    fspKey fsid pid p = true ↔ p.flash_sale_id = fsid ∧ p.product_id = pid := by
  simp [fspKey]

theorem okQtyFor_of_not_ok {fsid pid : String} {r : PurchaseResult}
    (h : ∀ o, r ≠ .ok o) : okQtyFor fsid pid r = 0 := by
  cases r <;> first | rfl | exact absurd rfl (h _)

/-- One purchase call preserves the stock invariant and the distinctness
of primary keys, and changes each key's remaining stock by exactly the
quantity it successfully reserved against that key. -/
theorem purchase_step (db : DB) (ls : LocalCounts) (fsid : String)
    (req : FlashSalePurchaseRequest) (ip : Option String) (rmc : Bool) (now : ℚ)
    (oid : String) (cok : Bool) (hinv : StockInv db) (hnd : IdsNodup db) :
    StockInv (purchase_in_flash_sale db ls fsid req ip rmc now oid cok).1 ∧
    IdsNodup (purchase_in_flash_sale db ls fsid req ip rmc now oid cok).1 ∧
    ∀ a b : String,
      stockOf (purchase_in_flash_sale db ls fsid req ip rmc now oid cok).1 a b
        = stockOf db a b
          - okQtyFor a b (purchase_in_flash_sale db ls fsid req ip rmc now oid cok).2.2 := by
  rcases purchase_spec db ls fsid req ip rmc now oid cok with
    ⟨hdb, hok⟩ | ⟨row, o, hrow, hres, hq, hqr, hofs, hopid, hrc, hdb⟩
  · refine ⟨by rw [hdb]; exact hinv, by rw [hdb]; exact hnd, fun a b => ?_⟩
    rw [hdb, okQtyFor_of_not_ok hok, sub_zero]
  · have hrowmem : row ∈ db.flash_sale_products := List.mem_of_find?_eq_some hrow
    have hrowkey := fspKey_eq_true.mp (List.find?_some hrow)
    have hle : o.quantity ≤ row.stock_remaining := by
      have := reserve_rowcount db.flash_sale_products row o.quantity hnd hrowmem
      rw [hrc] at this
      by_contra hcon
      rw [if_neg hcon] at this
      exact one_ne_zero this
    have hfsp : (purchase_in_flash_sale db ls fsid req ip rmc now oid cok).1.flash_sale_products
        = (reserve_stock_update db.flash_sale_products row.id o.quantity).1 := by
      rw [hdb]
    refine ⟨?_, ?_, ?_⟩
    · intro p hp
      rw [hfsp] at hp
      exact reserve_inv db.flash_sale_products row.id o.quantity hq hinv p hp
    · unfold IdsNodup
      rw [hfsp, reserve_ids]
      exact hnd
    · intro a b
      unfold stockOf
      rw [hfsp, hres, reserve_find?]
      by_cases hkey : a = fsid ∧ b = req.product_id
      · rcases hkey with ⟨rfl, rfl⟩
        rw [hrow]
        have hguard : (row.id == row.id && decide (o.quantity ≤ row.stock_remaining)) = true := by
          simp [hle]
        rw [Option.map_some']
        unfold reserveApply
        rw [if_pos hguard]
        simp only [okQtyFor, Option.map_some', Option.getD_some]
        rw [if_pos ⟨hofs, hopid⟩]
      · have hzero : okQtyFor a b (PurchaseResult.ok o) = 0 := by
          have hne : ¬(o.flash_sale_id = a ∧ o.product_id = b) := by
            intro ⟨h1, h2⟩
            exact hkey ⟨by rw [← h1, hofs], by rw [← h2, hopid]⟩
          show (if o.flash_sale_id = a ∧ o.product_id = b then o.quantity else 0) = 0
          rw [if_neg hne]
        rw [hzero, sub_zero]
        rcases hfind : db.flash_sale_products.find? (fspKey a b) with _ | row'
        · rfl
        · have hrow'mem : row' ∈ db.flash_sale_products := List.mem_of_find?_eq_some hfind
          have hrow'key := fspKey_eq_true.mp (List.find?_some hfind)
          have : reserveApply row.id o.quantity row' = row' := by
            unfold reserveApply
            rw [if_neg]
            intro hguard
            have hg := (Bool.and_eq_true _ _).mp hguard
            have hid : row'.id = row.id := eq_of_beq hg.1
            have heq : row' = row := List.inj_on_of_nodup_map hnd hrow'mem hrowmem hid
            exact hkey ⟨hrow'key.1 ▸ heq ▸ hrowkey.1 ▸ rfl, hrow'key.2 ▸ heq ▸ hrowkey.2 ▸ rfl⟩
          rw [Option.map_some', this]

theorem stockOf_nonneg {db : DB} (h : StockInv db) (a b : String) :
    0 ≤ stockOf db a b := by
  unfold stockOf
  rcases hfind : db.flash_sale_products.find? (fspKey a b) with _ | p
  · simp
  · simp only [Option.map_some', Option.getD_some]
    exact (h p (List.mem_of_find?_eq_some hfind)).1

theorem totalOkQty_cons (a b : String) (r : PurchaseResult) (rs : List PurchaseResult) :
    totalOkQty a b (r :: rs) = okQtyFor a b r + totalOkQty a b rs := by
  simp [totalOkQty]

/-- Folding `purchase_step` over a call sequence. -/
theorem runPurchases_spec (calls : List PurchaseCall) :
    ∀ (db : DB) (ls : LocalCounts), StockInv db → IdsNodup db →
      StockInv (runPurchases db ls calls).1 ∧ IdsNodup (runPurchases db ls calls).1 ∧
      ∀ a b : String, stockOf (runPurchases db ls calls).1 a b
        = stockOf db a b - totalOkQty a b (runPurchases db ls calls).2.2 := by
  induction calls with
  | nil =>
    intro db ls hinv hnd
    exact ⟨hinv, hnd, fun a b => by simp [runPurchases, totalOkQty]⟩
  | cons c cs ih =>
    intro db ls hinv hnd
    obtain ⟨h1, h2, h3⟩ := purchase_step db ls c.flash_sale_id c.request c.client_ip
      c.require_max_per_user_check c.now c.new_order_id c.commit_ok hinv hnd
    obtain ⟨g1, g2, g3⟩ := ih _ _ h1 h2
    refine ⟨g1, g2, fun a b => ?_⟩
    have hstep := h3 a b
    have hrest := g3 a b
    simp only [runPurchases]
    rw [totalOkQty_cons, hrest, hstep]
    ring

/-- Claim C1: a `FlashSaleProduct` row is created with
`stock_remaining = stock_allocated` and `version = 1`; every sequence of
purchase calls preserves `0 ≤ stock_remaining ≤ stock_allocated` after
each step; and against an initial remaining stock `S` of a key, the total
quantity of successful reservations never exceeds `S` (so the stock never
goes negative). -/
theorem C1_no_oversell (db0 : DB) (ls0 : LocalCounts) (calls : List PurchaseCall)
    (fsid pid : String) (hinv : StockInv db0) (hnd : IdsNodup db0) :
    (∀ (db : DB) (fsid' : String) (i : ℤ) (item : FlashSaleProductItemCreate)
        (fsp : FlashSaleProduct),
        create_flash_sale_product db fsid' i item = some fsp →
        fsp.stock_remaining = fsp.stock_allocated ∧ fsp.version = 1) ∧
    (∀ n : ℕ, StockInv (runPurchases db0 ls0 (calls.take n)).1) ∧
    totalOkQty fsid pid (runPurchases db0 ls0 calls).2.2 ≤ stockOf db0 fsid pid := by
  refine ⟨?_, ?_, ?_⟩
  · intro db fsid' i item fsp h
    simp only [create_flash_sale_product] at h
    split at h
    · cases h
    · split at h
      · cases h
      · injection h with h
        rw [← h]
        exact ⟨rfl, rfl⟩
  · intro n
    exact (runPurchases_spec (calls.take n) db0 ls0 hinv hnd).1
  · obtain ⟨hfin, _, h3⟩ := runPurchases_spec calls db0 ls0 hinv hnd
    have heq := h3 fsid pid
    have hpos := stockOf_nonneg hfin fsid pid
    omega

/-- A successful purchase call followed by a blocked one: the reserved
total stays within the initial stock. -/
def callEx1 : PurchaseCall :=
  { flash_sale_id := "FS1", request := reqU1, client_ip := none
    require_max_per_user_check := true, now := 500, new_order_id := "ORD_A"
    commit_ok := true }

/-- A second call by the same user at the same instant (hits the cooling
period). -/
def callEx2 : PurchaseCall := { callEx1 with new_order_id := "ORD_B" }

theorem C1_no_oversell_witness :
    StockInv dbC7 ∧ IdsNodup dbC7 ∧
    totalOkQty "FS1" "P1" (runPurchases dbC7 [] [callEx1, callEx2]).2.2
      ≤ stockOf dbC7 "FS1" "P1" :=
  ⟨by unfold StockInv; decide, by unfold IdsNodup; decide,
    (C1_no_oversell dbC7 [] [callEx1, callEx2] "FS1" "P1" (by unfold StockInv; decide)
      (by unfold IdsNodup; decide)).2.2⟩

/-- Claim C3: the purchase transaction is atomic — every call either
leaves the database exactly as it was (in particular when the commit fails
and the transaction rolls back), or commits the stock decrement and the
confirmed-order insert together. -/
theorem C3_purchase_atomicity (db : DB) (ls : LocalCounts) (fsid : String)
    (req : FlashSalePurchaseRequest) (ip : Option String) (rmc : Bool) (now : ℚ)
    (oid : String) (cok : Bool) :
    ((purchase_in_flash_sale db ls fsid req ip rmc now oid cok).2.2 = .persistenceFailure →
      (purchase_in_flash_sale db ls fsid req ip rmc now oid cok).1 = db) ∧
    (((purchase_in_flash_sale db ls fsid req ip rmc now oid cok).1 = db ∧
        ∀ o, (purchase_in_flash_sale db ls fsid req ip rmc now oid cok).2.2 ≠ .ok o) ∨
      (∃ o row,
        (purchase_in_flash_sale db ls fsid req ip rmc now oid cok).2.2 = .ok o ∧
        (purchase_in_flash_sale db ls fsid req ip rmc now oid cok).1.orders
          = db.orders ++ [o] ∧
        db.flash_sale_products.find? (fspKey fsid req.product_id) = some row ∧
        0 < o.quantity ∧
        (reserve_stock_update db.flash_sale_products row.id o.quantity).2 = 1 ∧
        (purchase_in_flash_sale db ls fsid req ip rmc now oid cok).1.flash_sale_products
          = (reserve_stock_update db.flash_sale_products row.id o.quantity).1)) := by
  rcases purchase_spec db ls fsid req ip rmc now oid cok with
    ⟨hdb, hok⟩ | ⟨row, o, hrow, hres, hq, hqr, hofs, hopid, hrc, hdb⟩
  · exact ⟨fun _ => hdb, Or.inl ⟨hdb, hok⟩⟩
  · refine ⟨fun hpf => ?_,
      Or.inr ⟨o, row, hres, by rw [hdb], hrow, hq, hrc, by rw [hdb]⟩⟩
    rw [hres] at hpf
    cases hpf

theorem C3_purchase_atomicity_witness :
    (purchase_in_flash_sale dbC7 [] "FS1" reqU1 none true 500 "ORD_X" false).1 = dbC7 :=
  (C3_purchase_atomicity dbC7 [] "FS1" reqU1 none true 500 "ORD_X" false).1 (by decide)

/-- Claim C2 counterexample: the conditional update the reservation step
issues succeeds in a state whose `version` (2) differs from the previously
read value (1) — its `WHERE` clause checks the stock level only — whereas
the compare-and-swap guard the claim describes matches no row there.  So
the claim that the issued guard "checks ... that version equals the
previously read value" is false. -/
theorem C2_counterexample :
    rowV2.version = 2 ∧
    (reserve_stock_update [rowV2] 1 1).2 = 1 ∧
    (reserve_stock_update [rowV2] 1 1).1
      = [{ rowV2 with stock_remaining := 4, version := 3 }] ∧
    (reserve_stock_update_claimed [rowV2] 1 1 1).2 = 0 ∧
    (reserve_stock_update_claimed [rowV2] 1 1 1).1 = [rowV2] := by
  decide

/-- Claim C2 (amended): the reservation step issues a single conditional
update whose guard checks `stock_remaining >= quantity` only (the version
column is incremented but not part of the guard); on success it decrements
`stock_remaining` by the quantity and increments `version` by 1, and when
the guard fails the purchase fails with the 409 `InsufficientStock`
outcome and the row — indeed the whole database — is unchanged. -/
theorem C2_guard_stock_only (db : DB) (ls : LocalCounts) (fsid : String)
    (req : FlashSalePurchaseRequest) (ip : Option String) (rmc : Bool) (now : ℚ)
    (oid : String) (cok : Bool) (row : FlashSaleProduct)
    (hnd : IdsNodup db)
    (hval : (validate_purchase_request db fsid (toValidateReq req) ip now).allowed = true)
    (hq : 0 < req.quantity)
    (hrow : db.flash_sale_products.find? (fspKey fsid req.product_id) = some row)
    (hlocal : ¬(rmc = true ∧ row.max_per_user <
        localGet ls (req.user_id, fsid, req.product_id) + req.quantity)) :
    (row.stock_remaining < req.quantity →
      (purchase_in_flash_sale db ls fsid req ip rmc now oid cok).1 = db ∧
      (purchase_in_flash_sale db ls fsid req ip rmc now oid cok).2.2
        = .insufficientStock row.stock_remaining) ∧
    (req.quantity ≤ row.stock_remaining → cok = true →
      ∃ o, (purchase_in_flash_sale db ls fsid req ip rmc now oid cok).2.2 = .ok o ∧
        (purchase_in_flash_sale db ls fsid req ip rmc now oid cok).1.flash_sale_products.find?
            (fspKey fsid req.product_id)
          = some { row with
                   stock_remaining := row.stock_remaining - req.quantity
                   version := row.version + 1 }) := by
  have hrowmem := List.mem_of_find?_eq_some hrow
  have hq0 : ¬ req.quantity ≤ 0 := by omega
  constructor
  · intro hlt
    have hnotle : ¬ req.quantity ≤ row.stock_remaining := by omega
    have hrc := reserve_rowcount db.flash_sale_products row req.quantity hnd hrowmem
    rw [if_neg hnotle] at hrc
    have hnoop := reserve_noop db.flash_sale_products row req.quantity hnd hrowmem hnotle
    have hfreshfind : db.flash_sale_products.find? (fun p => p.id == row.id) = some row := by
      rcases hf : db.flash_sale_products.find? (fun p => p.id == row.id) with _ | b
      · exfalso
        have := List.find?_eq_none.mp hf row hrowmem
        simp at this
      · have hb := List.find?_some hf
        have hbmem := List.mem_of_find?_eq_some hf
        have hbr : b = row := List.inj_on_of_nodup_map hnd hbmem hrowmem (eq_of_beq hb)
        rw [hbr] at hf
        exact hf
    simp only [purchase_in_flash_sale, hval, Bool.not_true, Bool.false_eq_true, if_false,
      if_neg hq0, hrow, if_neg hlocal, hrc, hnoop, hfreshfind]
    simp
  · intro hle hcok
    have hrc := reserve_rowcount db.flash_sale_products row req.quantity hnd hrowmem
    rw [if_pos hle] at hrc
    have hfind' := reserve_find? db.flash_sale_products row.id req.quantity fsid
      req.product_id
    rw [hrow, Option.map_some'] at hfind'
    have happ : reserveApply row.id req.quantity row
        = { row with
            stock_remaining := row.stock_remaining - req.quantity
            version := row.version + 1 } := by
      unfold reserveApply
      rw [if_pos (by simp [hle])]
    simp only [purchase_in_flash_sale, hval, Bool.not_true, Bool.false_eq_true, if_false,
      if_neg hq0, hrow, if_neg hlocal, hrc, hcok]
    rw [if_neg (show ¬(1 : ℕ) ≠ 1 by decide), if_pos trivial]
    exact ⟨_, rfl, by rw [hfind', happ]⟩

theorem C2_guard_stock_only_witness :
    (purchase_in_flash_sale dbC7 [] "FS1" { reqU1 with quantity := 4 } none true 500
      "ORD_X" true).1 = dbC7 ∧
    (purchase_in_flash_sale dbC7 [] "FS1" { reqU1 with quantity := 4 } none true 500
      "ORD_X" true).2.2 = .insufficientStock 3 :=
  (C2_guard_stock_only dbC7 [] "FS1" { reqU1 with quantity := 4 } none true 500
      "ORD_X" true fspRow (by unfold IdsNodup; decide) (by decide) (by decide)
      (by decide) (by decide)).1 (by decide)

/-! ## Lifecycle-transition lemmas -/

theorem get_flash_sale_found (db : DB) (fsid : String) (s : FlashSale)
    (h : findSale db fsid = some s) :
    get_flash_sale db fsid
      = ({ db with
            flash_sales := updateFirst (fun x => x.flash_sale_id == fsid)
              (fun _ => { s with visitors := some (s.visitors.getD 0 + 1) })
              db.flash_sales },
         some { s with visitors := some (s.visitors.getD 0 + 1) }) := by
  unfold get_flash_sale
  simp only [h]

theorem findSale_updateFirst (l : List FlashSale) (fsid : String) (s t : FlashSale)
    (h : l.find? (fun x => x.flash_sale_id == fsid) = some s)
    (ht : t.flash_sale_id = s.flash_sale_id) :
    (updateFirst (fun x => x.flash_sale_id == fsid) (fun _ => t) l).find?
        (fun x => x.flash_sale_id == fsid) = some t := by
  apply find?_updateFirst _ _ _ s h
  have hs := List.find?_some h
  simp only [ht]
  exact hs

theorem findSale_after_get (db : DB) (fsid : String) (s : FlashSale)
    (h : findSale db fsid = some s) :
    findSale (get_flash_sale db fsid).1 fsid
      = some { s with visitors := some (s.visitors.getD 0 + 1) } := by
  rw [get_flash_sale_found db fsid s h]
  exact findSale_updateFirst db.flash_sales fsid s _ h rfl

theorem end_flash_sale_found (db : DB) (fsid : String) (s : FlashSale)
    (h : findSale db fsid = some s) :
    findSale (end_flash_sale db fsid).1 fsid
      = some { s with visitors := some (s.visitors.getD 0 + 1), status := "ended" } ∧
    (end_flash_sale db fsid).2
      = .ok { s with visitors := some (s.visitors.getD 0 + 1), status := "ended" } := by
  unfold end_flash_sale
  rw [get_flash_sale_found db fsid s h]
  refine ⟨?_, rfl⟩
  have h1 : findSale (get_flash_sale db fsid).1 fsid
      = some { s with visitors := some (s.visitors.getD 0 + 1) } :=
    findSale_after_get db fsid s h
  rw [get_flash_sale_found db fsid s h] at h1
  exact findSale_updateFirst _ fsid _ _ h1 rfl

theorem cancel_flash_sale_found (db : DB) (fsid : String) (s : FlashSale)
    (h : findSale db fsid = some s) :
    findSale (cancel_flash_sale db fsid).1 fsid
      = some { s with visitors := some (s.visitors.getD 0 + 1), status := "cancelled" } ∧
    (cancel_flash_sale db fsid).2
      = .ok { s with visitors := some (s.visitors.getD 0 + 1), status := "cancelled" } := by
  unfold cancel_flash_sale
  rw [get_flash_sale_found db fsid s h]
  refine ⟨?_, rfl⟩
  have h1 : findSale (get_flash_sale db fsid).1 fsid
      = some { s with visitors := some (s.visitors.getD 0 + 1) } :=
    findSale_after_get db fsid s h
  rw [get_flash_sale_found db fsid s h] at h1
  exact findSale_updateFirst _ fsid _ _ h1 rfl

theorem activate_flash_sale_found (db : DB) (fsid : String) (now : ℚ) (s : FlashSale)
    (h : findSale db fsid = some s) :
    (s.start_time ≤ now ∧ now ≤ s.end_time →
      findSale (activate_flash_sale db fsid now).1 fsid
        = some { s with visitors := some (s.visitors.getD 0 + 1), status := "active" } ∧
      (activate_flash_sale db fsid now).2
        = .ok { s with visitors := some (s.visitors.getD 0 + 1), status := "active" }) ∧
    (¬(s.start_time ≤ now ∧ now ≤ s.end_time) →
      findSale (activate_flash_sale db fsid now).1 fsid
        = some { s with visitors := some (s.visitors.getD 0 + 1) } ∧
      (activate_flash_sale db fsid now).2 = .httpError 400) := by
  have h1 : findSale (get_flash_sale db fsid).1 fsid
      = some { s with visitors := some (s.visitors.getD 0 + 1) } :=
    findSale_after_get db fsid s h
  rw [get_flash_sale_found db fsid s h] at h1
  unfold activate_flash_sale
  simp only [get_flash_sale_found db fsid s h]
  constructor
  · intro ⟨hs, he⟩
    rw [if_neg (not_lt.mpr hs), if_neg (not_lt.mpr he)]
    exact ⟨findSale_updateFirst _ fsid _ _ h1 rfl, rfl⟩
  · intro hno
    by_cases hs : now < s.start_time
    · rw [if_pos hs]
      exact ⟨h1, rfl⟩
    · have he : s.end_time < now := by
        rcases not_and_or.mp hno with h' | h'
        · exact absurd (not_lt.mp hs) h'
        · exact not_le.mp h'
      rw [if_neg hs, if_pos he]
      exact ⟨h1, rfl⟩

/-- Claim C5 counterexample: `cancelled` is not terminal — calling
`end_flash_sale` on a cancelled sale rewrites its status to `ended`, so a
transition operation does move a sale out of a terminal state. -/
theorem C5_counterexample :
    statusAfter dbC5 "FS1" = some "cancelled" ∧
    statusAfter (end_flash_sale dbC5 "FS1").1 "FS1" = some "ended" := by
  decide

/-- Claim C5 (amended): the transition operations never inspect the
current status.  `end_flash_sale` always writes `ended` and
`cancel_flash_sale` always writes `cancelled`, also from the terminal
states; `activate_flash_sale` writes `active` exactly when `now` lies in
the closed window `[start_time, end_time]` (including `end_time`),
regardless of the current status, and otherwise rejects with 400 leaving
the status unchanged. -/
theorem C5_transitions (db : DB) (fsid : String) (now : ℚ) (s : FlashSale)
    (h : findSale db fsid = some s) :
    statusAfter (end_flash_sale db fsid).1 fsid = some "ended" ∧
    statusAfter (cancel_flash_sale db fsid).1 fsid = some "cancelled" ∧
    (s.start_time ≤ now ∧ now ≤ s.end_time →
      statusAfter (activate_flash_sale db fsid now).1 fsid = some "active" ∧
      (activate_flash_sale db fsid now).2
        = .ok { s with visitors := some (s.visitors.getD 0 + 1), status := "active" }) ∧
    (¬(s.start_time ≤ now ∧ now ≤ s.end_time) →
      statusAfter (activate_flash_sale db fsid now).1 fsid = some s.status ∧
      (activate_flash_sale db fsid now).2 = .httpError 400) := by
  obtain ⟨he1, _⟩ := end_flash_sale_found db fsid s h
  obtain ⟨hc1, _⟩ := cancel_flash_sale_found db fsid s h
  have ha := activate_flash_sale_found db fsid now s h
  refine ⟨by simp [statusAfter, he1], by simp [statusAfter, hc1], ?_, ?_⟩
  · intro hw
    obtain ⟨f1, f2⟩ := ha.1 hw
    exact ⟨by simp [statusAfter, f1], f2⟩
  · intro hw
    obtain ⟨f1, f2⟩ := ha.2 hw
    exact ⟨by simp [statusAfter, f1], f2⟩

theorem C5_transitions_witness :
    statusAfter (end_flash_sale dbC5 "FS1").1 "FS1" = some "ended" ∧
    statusAfter (activate_flash_sale dbC5 "FS1" 500).1 "FS1" = some "active" := by
  have h := C5_transitions dbC5 "FS1" 500 saleCancelled (by decide)
  exact ⟨h.1, (h.2.2.1 (by decide)).1⟩

/-- Claim C10: reads are not side-effect free — `get_flash_sale` on an
existing sale persists `visitors + 1`, and the three transition endpoints,
which look the sale up through `get_flash_sale`, do the same on every call
(also on the 400 path of `activate_flash_sale`). -/
theorem C10_visitors_side_effect (db : DB) (fsid : String) (now : ℚ) (s : FlashSale)
    (h : findSale db fsid = some s) :
    visitorsAfter (get_flash_sale db fsid).1 fsid = some (some (s.visitors.getD 0 + 1)) ∧
    visitorsAfter (activate_flash_sale db fsid now).1 fsid
      = some (some (s.visitors.getD 0 + 1)) ∧
    visitorsAfter (end_flash_sale db fsid).1 fsid = some (some (s.visitors.getD 0 + 1)) ∧
    visitorsAfter (cancel_flash_sale db fsid).1 fsid
      = some (some (s.visitors.getD 0 + 1)) := by
  refine ⟨?_, ?_, ?_, ?_⟩
  · simp [visitorsAfter, findSale_after_get db fsid s h]
  · by_cases hw : s.start_time ≤ now ∧ now ≤ s.end_time
    · obtain ⟨f1, _⟩ := (activate_flash_sale_found db fsid now s h).1 hw
      simp [visitorsAfter, f1]
    · obtain ⟨f1, _⟩ := (activate_flash_sale_found db fsid now s h).2 hw
      simp [visitorsAfter, f1]
  · simp [visitorsAfter, (end_flash_sale_found db fsid s h).1]
  · simp [visitorsAfter, (cancel_flash_sale_found db fsid s h).1]

theorem C10_visitors_side_effect_witness :
    visitorsAfter (get_flash_sale dbC7 "FS1").1 "FS1" = some (some 1) ∧
    visitorsAfter (end_flash_sale dbC7 "FS1").1 "FS1" = some (some 1) := by
  have h := C10_visitors_side_effect dbC7 "FS1" 500 saleFS1 (by decide)
  exact ⟨h.1, h.2.2.1⟩

/-! ## Catalog price-clamp lemmas -/

/-- `bulk_update_prices` never lowers a product's `current_price` below
its `min_allowed_price`: every product in the resulting catalog either
kept its old `current_price` or received a value clamped at its floor. -/
theorem bulk_clamp (items : List BulkPriceUpdateItem) :
    ∀ db : DB, ∀ q ∈ (bulk_update_prices db items).1.products,
      ∃ q0 ∈ db.products, q0.product_id = q.product_id ∧
        q0.min_allowed_price = q.min_allowed_price ∧
        (q.current_price = q0.current_price ∨ q.min_allowed_price ≤ q.current_price) := by
  induction items with
  | nil =>
    intro db q hq
    exact ⟨q, hq, rfl, rfl, Or.inl rfl⟩
  | cons item rest ih =>
    intro db q hq
    simp only [bulk_update_prices] at hq
    split at hq
    · exact ih db q hq
    · rename_i p hfind
      have hpmem : p ∈ db.products := List.mem_of_find?_eq_some hfind
      obtain ⟨q0, hq0mem, hpid, hmin, hcur⟩ := ih _ q hq
      rcases mem_updateFirst _ _ _ _ hq0mem with hmem | ⟨a, _, _, hq0⟩
      · exact ⟨q0, hmem, hpid, hmin, hcur⟩
      · refine ⟨p, hpmem, ?_, ?_, Or.inr ?_⟩
        · rw [← hpid, hq0]
        · rw [← hmin, hq0]
        · have hq0min : q0.min_allowed_price = p.min_allowed_price := by rw [hq0]
          have hq0cur : p.min_allowed_price ≤ q0.current_price := by
            rw [hq0]
            exact le_max_right _ _
          rcases hcur with hc | hc
          · rw [hc, ← hmin, hq0min]
            exact hq0cur
          · rw [← hmin, hq0min] at hc ⊢
            exact hc

/-- Claim C4 (amended): `update_base_price` and `bulk_update_prices`
clamp the written price at `min_allowed_price`
(`max(requested, min_allowed_price)`), so after them the affected price is
never below the floor; `update_product`, however, performs no clamping and
stores exactly the requested values. -/
theorem C4_price_clamp (db : DB) (pid : String) (price : ℚ) (sync : Bool)
    (items : List BulkPriceUpdateItem) (p : Product)
    (h : db.products.find? (fun x => x.product_id == pid) = some p) :
    (∃ q, (update_base_price db pid price sync).2 = some q ∧
      q.base_price = max price p.min_allowed_price ∧
      p.min_allowed_price ≤ q.base_price ∧
      q.min_allowed_price = p.min_allowed_price ∧
      (sync = true → q.current_price = max price p.min_allowed_price) ∧
      (sync = false → q.current_price = p.current_price)) ∧
    (∀ q ∈ (bulk_update_prices db items).1.products,
      ∃ q0 ∈ db.products, q0.product_id = q.product_id ∧
        q0.min_allowed_price = q.min_allowed_price ∧
        (q.current_price = q0.current_price ∨ q.min_allowed_price ≤ q.current_price)) ∧
    (∀ (data : ProductUpdate) (q : Product), (update_product db pid data).2 = some q →
      q.base_price = data.base_price ∧ q.current_price = data.current_price ∧
      q.min_allowed_price = data.min_allowed_price) := by
  refine ⟨?_, bulk_clamp items db, ?_⟩
  · have hmaxmax : max (max price p.min_allowed_price) p.min_allowed_price
        = max price p.min_allowed_price := max_eq_left (le_max_right _ _)
    unfold update_base_price
    simp only [h]
    cases sync with
    | false =>
      refine ⟨_, rfl, rfl, le_max_right _ _, rfl, ?_, ?_⟩
      · intro hc
        exact absurd hc (by decide)
      · intro _
        rfl
    | true =>
      by_cases heq : max (max price p.min_allowed_price) p.min_allowed_price
          = p.current_price
      · rw [if_pos rfl, if_pos heq]
        refine ⟨_, rfl, rfl, le_max_right _ _, rfl, ?_, ?_⟩
        · intro _
          show p.current_price = _
          rw [← heq, hmaxmax]
        · intro hc
          exact absurd hc (by decide)
      · rw [if_pos rfl, if_neg heq]
        refine ⟨_, rfl, rfl, le_max_right _ _, rfl, ?_, ?_⟩
        · intro _
          show max (max price p.min_allowed_price) p.min_allowed_price = _
          rw [hmaxmax]
        · intro hc
          exact absurd hc (by decide)
  · intro data q hq
    unfold update_product at hq
    rw [h] at hq
    injection hq with hq
    rw [← hq]
    exact ⟨rfl, rfl, rfl⟩

/-- Claim C4 counterexample: `update_product` stores a requested
`base_price` of 10 although `min_allowed_price` is 50 — no write-time
clamping happens on that operation. -/
theorem C4_counterexample :
    prodP1.min_allowed_price = 50 ∧ updC4.base_price = 10 ∧
    ((update_product dbC4 "P1" updC4).2.map (fun p => p.base_price)) = some 10 ∧
    ((update_product dbC4 "P1" updC4).2.map
      (fun p => decide (p.base_price < p.min_allowed_price))) = some true := by
  decide

theorem C4_price_clamp_witness :
    ∃ q, (update_base_price dbC4 "P1" 10 true).2 = some q ∧
      q.base_price = max 10 prodP1.min_allowed_price ∧
      prodP1.min_allowed_price ≤ q.base_price ∧
      q.min_allowed_price = prodP1.min_allowed_price ∧
      (true = true → q.current_price = max 10 prodP1.min_allowed_price) ∧
      (true = false → q.current_price = prodP1.current_price) :=
  (C4_price_clamp dbC4 "P1" 10 true [] prodP1 (by decide)).1

/-! ## Validation lemmas (IP heuristic, cooling period) -/

theorem mem_if_nil_singleton {c : Prop} [Decidable c] {r x : Reason} :
    (x ∈ if c then ([] : List Reason) else [r]) ↔ ¬c ∧ x = r := by
  split
  · simp [*]
  · simp [*]

theorem mem_if_singleton_nil {c : Prop} [Decidable c] {r x : Reason} :
    (x ∈ if c then [r] else ([] : List Reason)) ↔ c ∧ x = r := by
  split
  · simp [*]
  · simp [*]

/-- Claim C6 counterexample: all five confirmed same-IP orders in `dbC6`
belong to the single other user `u2`, i.e. only one distinct other user
bought from that IP, yet `validate_purchase_request` flags the request as
suspected abuse — the heuristic counts order rows, not distinct users. -/
theorem C6_counterexample :
    (∀ o ∈ dbC6.orders, o.user_id = "u2") ∧
    Reason.ipAbuse ∈
      (validate_purchase_request dbC6 "FS1" dataU1 (some "9.9.9.9") 500).reasons ∧
    (validate_purchase_request dbC6 "FS1" dataU1 (some "9.9.9.9") 500).allowed = false := by
  decide

/-- Claim C6 (amended): `validate_purchase_request` appends the same-IP
abuse reason iff at least 5 confirmed order ROWS for the
`(flash_sale_id, product_id)` pair were placed from the given, non-empty
client IP by users other than the requester — each order counts, however
few distinct users placed them. -/
theorem C6_ip_heuristic (db : DB) (fsid : String) (data : ValidatePurchaseRequest)
    (ip : Option String) (now : ℚ) (sale : FlashSale) (fsp : FlashSaleProduct)
    (hsale : findSale db fsid = some sale)
    (hfsp : db.flash_sale_products.find? (fspKey sale.flash_sale_id data.product_id)
        = some fsp) :
    Reason.ipAbuse ∈ (validate_purchase_request db fsid data ip now).reasons ↔
      ∃ ipa : String, ip = some ipa ∧ ipa ≠ "" ∧
        5 ≤ otherUsersSameIpCount db sale.flash_sale_id data.product_id data.user_id ipa := by
  unfold validate_purchase_request
  simp only [hsale, hfsp]
  rcases hlast : lastByTimestamp (userOrders db sale.flash_sale_id data.product_id
      data.user_id) with _ | last
  · rcases ip with _ | ipa
    · simp [List.mem_append, mem_if_nil_singleton, mem_if_singleton_nil]
    · by_cases hempty : ipa = ""
      · simp [hempty, List.mem_append, mem_if_nil_singleton, mem_if_singleton_nil]
      · simp [hempty, List.mem_append, mem_if_nil_singleton, mem_if_singleton_nil]
  · rcases ip with _ | ipa
    · simp [List.mem_append, mem_if_nil_singleton, mem_if_singleton_nil]
    · by_cases hempty : ipa = ""
      · simp [hempty, List.mem_append, mem_if_nil_singleton, mem_if_singleton_nil]
      · simp [hempty, List.mem_append, mem_if_nil_singleton, mem_if_singleton_nil]

theorem C6_ip_heuristic_witness :
    Reason.ipAbuse ∈
      (validate_purchase_request dbC6 "FS1" dataU1 (some "9.9.9.9") 500).reasons :=
  (C6_ip_heuristic dbC6 "FS1" dataU1 (some "9.9.9.9") 500 saleFS1 fspRow
      (by decide) (by decide)).mpr
    ⟨"9.9.9.9", rfl, by decide, by decide⟩

/-- A validate request by `u2` (who owns prior confirmed orders). -/
def dataCooling : ValidatePurchaseRequest := { dataU1 with user_id := "u2" }

/-- Claim C9: with a prior confirmed order on the same product in the
same sale, a request less than 60 seconds after the last confirmed
purchase is rejected with a cooling reason reporting
`60 - floor(elapsed seconds)` (Python `int()` truncation, which equals the
floor for the non-negative elapsed time); 60 or more elapsed seconds
produce no cooling reason. -/
theorem C9_cooling (db : DB) (fsid : String) (data : ValidatePurchaseRequest)
    (ip : Option String) (now : ℚ) (sale : FlashSale) (fsp : FlashSaleProduct)
    (last : FlashSaleOrder)
    (hsale : findSale db fsid = some sale)
    (hfsp : db.flash_sale_products.find? (fspKey sale.flash_sale_id data.product_id)
        = some fsp)
    (hlast : lastByTimestamp (userOrders db sale.flash_sale_id data.product_id
        data.user_id) = some last)
    (hpast : last.purchase_timestamp ≤ now) :
    (now - last.purchase_timestamp < 60 →
      Reason.cooling (60 - Int.floor (now - last.purchase_timestamp))
          ∈ (validate_purchase_request db fsid data ip now).reasons ∧
      (validate_purchase_request db fsid data ip now).allowed = false) ∧
    (60 ≤ now - last.purchase_timestamp →
      ∀ w : ℤ, Reason.cooling w ∉ (validate_purchase_request db fsid data ip now).reasons) := by
  have htr : pyTrunc (now - last.purchase_timestamp)
      = Int.floor (now - last.purchase_timestamp) := by
    unfold pyTrunc
    rw [if_neg (not_lt.mpr (by linarith))]
  have hc60 : ((COOLING_PERIOD_SECONDS : ℤ) : ℚ) = (60 : ℚ) := by
    norm_num [COOLING_PERIOD_SECONDS]
  unfold validate_purchase_request
  simp only [hsale, hfsp, hlast]
  constructor
  · intro hlt
    have hcond : now - last.purchase_timestamp < ((COOLING_PERIOD_SECONDS : ℤ) : ℚ) := by
      rw [hc60]
      exact hlt
    have hpay : COOLING_PERIOD_SECONDS - pyTrunc (now - last.purchase_timestamp)
        = 60 - Int.floor (now - last.purchase_timestamp) := by
      rw [htr]
      rfl
    constructor
    · rw [if_pos hcond, hpay]
      simp [List.mem_append]
    · rw [if_pos hcond]
      simp
  · intro hge w
    have hncond : ¬ now - last.purchase_timestamp < ((COOLING_PERIOD_SECONDS : ℤ) : ℚ) := by
      rw [hc60]
      linarith
    rw [if_neg hncond]
    rcases ip with _ | ipa
    · simp [List.mem_append, mem_if_nil_singleton, mem_if_singleton_nil]
    · by_cases hempty : ipa = ""
      · simp [hempty, List.mem_append, mem_if_nil_singleton, mem_if_singleton_nil]
      · simp [hempty, List.mem_append, mem_if_nil_singleton, mem_if_singleton_nil]

theorem C9_cooling_witness :
    Reason.cooling (60 - Int.floor ((79/2 : ℚ) - (mkOrder "O5" "u2" 14).purchase_timestamp))
        ∈ (validate_purchase_request dbC6 "FS1" dataCooling none (79/2)).reasons ∧
    (validate_purchase_request dbC6 "FS1" dataCooling none (79/2)).allowed = false :=
  (C9_cooling dbC6 "FS1" dataCooling none (79/2) saleFS1 fspRow (mkOrder "O5" "u2" 14)
      (by decide) (by decide) (by decide) (by norm_num [mkOrder])).1 (by norm_num [mkOrder])

/-! ## Quote split (claim C7) -/

/-- Claim C7: with an active flash offer and `q > 0`, the quote sets
`flash_sale_quantity = min(q, max(stock_remaining, 0), max_per_user)` when
that minimum is positive, `dynamic_quantity = q - flash_sale_quantity`,
and `total_final_price = flashQty * flash_price + dynQty * dynamic_unit_price`. -/
theorem C7_quote_split (db : DB) (product : Product) (q : ℤ) (tier : Option String)
    (now : ℚ) (pynow : PyNow) (row : FlashRow)
    (hrow : _get_active_flash_sale_for_product db product now = some row)
    (_hq : 0 < q)
    (hpos : 0 < min q (min (max row.stock_remaining 0) row.max_per_user)) :
    (calculate_final_price db product q tier now pynow).flash_sale_quantity
        = min q (min (max row.stock_remaining 0) row.max_per_user) ∧
    (calculate_final_price db product q tier now pynow).dynamic_quantity
        = q - min q (min (max row.stock_remaining 0) row.max_per_user) ∧
    (calculate_final_price db product q tier now pynow).flash_sale_applied = true ∧
    (calculate_final_price db product q tier now pynow).total_final_price
        = ((min q (min (max row.stock_remaining 0) row.max_per_user) : ℤ) : ℚ)
            * row.flash_sale_price
          + ((q - min q (min (max row.stock_remaining 0) row.max_per_user) : ℤ) : ℚ)
            * (calculate_final_price db product q tier now pynow).dynamic_unit_price := by
  unfold calculate_final_price
  simp only [hrow]
  rw [if_pos hpos]
  by_cases hdq : 0 < q - min q (min (max row.stock_remaining 0) row.max_per_user)
  · rw [if_pos hdq]
    refine ⟨rfl, rfl, rfl, ?_⟩
    push_cast
    ring
  · rw [if_neg hdq]
    have hqm : q - min q (min (max row.stock_remaining 0) row.max_per_user) = 0 := by
      have hle : min q (min (max row.stock_remaining 0) row.max_per_user) ≤ q :=
        min_le_left _ _
      omega
    refine ⟨rfl, rfl, rfl, ?_⟩
    rw [hqm]
    push_cast
    ring

theorem C7_quote_split_witness :
    (calculate_final_price dbC7 prodP1 5 none 500 pynow0).flash_sale_quantity = 3 ∧
    (calculate_final_price dbC7 prodP1 5 none 500 pynow0).dynamic_quantity = 2 ∧
    (calculate_final_price dbC7 prodP1 5 none 500 pynow0).total_final_price
      = 3 * flashRowEx.flash_sale_price
        + 2 * (calculate_final_price dbC7 prodP1 5 none 500 pynow0).dynamic_unit_price := by
  obtain ⟨h1, h2, _, h4⟩ :=
    C7_quote_split dbC7 prodP1 5 none 500 pynow0 flashRowEx (by decide) (by decide) (by decide)
  refine ⟨?_, ?_, ?_⟩
  · rw [h1]
    decide
  · rw [h2]
    decide
  · rw [h4]
    norm_num [flashRowEx]

/-! ## Rule evaluation (claim C8) -/

/-- The fold of `_calculate_dynamic_price` characterised: it applies some
prefix-respecting sublist `extra` of the rule list — exactly the rules
whose discount is positive, stopping right after an exclusive one — and
multiplies the price by each applied rule's factor `1 - discount/100`. -/
theorem applyRulesLoop_spec (q : ℤ) (tier : Option String) (cart : ℚ) (pynow : PyNow) :
    ∀ (rules : List PricingRule) (price : ℚ) (applied : List PricingRule),
      ∃ extra : List PricingRule,
        applyRulesLoop q tier cart pynow rules price applied
          = (price * (extra.map (fun r =>
              1 - _calculate_discount r q tier cart pynow / 100)).prod, applied ++ extra) ∧
        extra.Sublist rules ∧
        (∀ r ∈ extra, 0 < _calculate_discount r q tier cart pynow) ∧
        (∀ l1 l2 (r : PricingRule), extra = l1 ++ r :: l2 → r.is_exclusive = true → l2 = []) := by
  intro rules
  induction rules with
  | nil =>
    intro price applied
    refine ⟨[], by simp [applyRulesLoop], List.nil_sublist _, by simp, ?_⟩
    intro l1 l2 r h
    exact absurd h (by simp)
  | cons rule rest ih =>
    intro price applied
    by_cases hd : 0 < _calculate_discount rule q tier cart pynow
    · by_cases hex : rule.is_exclusive
      · refine ⟨[rule], ?_, (List.nil_sublist rest).cons₂ rule, ?_, ?_⟩
        · simp only [applyRulesLoop, if_pos hd, hex, if_pos rfl]
          simp [_apply_discount]
        · intro r hr
          rw [List.mem_singleton.mp hr]
          exact hd
        · intro l1 l2 r h _
          cases l1 with
          | nil =>
            injection h with h1 h2
            exact h2.symm
          | cons x t =>
            injection h with h1 h2
            exact absurd h2 (by simp)
      · obtain ⟨extra, heq, hsub, hpos, hstop⟩ :=
          ih (_apply_discount price (_calculate_discount rule q tier cart pynow))
            (applied ++ [rule])
        refine ⟨rule :: extra, ?_, hsub.cons₂ rule, ?_, ?_⟩
        · simp only [applyRulesLoop, if_pos hd, hex, if_neg (by simp : ¬False)]
          rw [heq]
          simp [_apply_discount, mul_assoc]
        · intro r hr
          rcases List.mem_cons.mp hr with hr | hr
          · rw [hr]
            exact hd
          · exact hpos r hr
        · intro l1 l2 r h hrex
          cases l1 with
          | nil =>
            injection h with h1 h2
            rw [← h1] at hrex
            exact absurd hrex (by simp [hex])
          | cons x t =>
            injection h with h1 h2
            exact hstop t l2 r h2 hrex
    · obtain ⟨extra, heq, hsub, hpos, hstop⟩ := ih price applied
      refine ⟨extra, ?_, hsub.cons rule, hpos, hstop⟩
      simp only [applyRulesLoop, if_neg hd]
      exact heq

/-- Claim C8: `_calculate_dynamic_price` starts from `base_price`,
applies (in ascending priority order, exactly the applicable active rules
with positive computed discount, stopping after an exclusive one) the
factor `1 - discount/100` per applied rule, and clamps the result at
`min_allowed_price`; concretely, with an exclusive 20% rule at priority 1
and a 10% rule at priority 2 both matching, the result reflects only the
20% discount (`100 -> 80`) and records only that rule. -/
theorem C8_rule_evaluation (db : DB) (product : Product) (q : ℤ)
    (tier : Option String) (pynow : PyNow) :
    (product.min_allowed_price ≤ (_calculate_dynamic_price db product q tier pynow).1 ∧
     (_calculate_dynamic_price db product q tier pynow).1
       = max (product.base_price *
           (((_calculate_dynamic_price db product q tier pynow).2).map (fun r =>
             1 - _calculate_discount r q tier (product.base_price * (q : ℚ)) pynow / 100)).prod)
           product.min_allowed_price ∧
     (∀ r ∈ (_calculate_dynamic_price db product q tier pynow).2,
       0 < _calculate_discount r q tier (product.base_price * (q : ℚ)) pynow ∧
       r ∈ _get_applicable_rules db product) ∧
     List.Pairwise (fun a b : PricingRule => a.priority ≤ b.priority)
       (_calculate_dynamic_price db product q tier pynow).2 ∧
     (∀ l1 l2 (r : PricingRule),
       (_calculate_dynamic_price db product q tier pynow).2 = l1 ++ r :: l2 →
       r.is_exclusive = true → l2 = [])) ∧
    _calculate_dynamic_price dbC8 prodP1 1 (some "gold") pynow0 = (80, [rule20]) := by
  constructor
  · obtain ⟨extra, heq, hsub, hpos, hstop⟩ :=
      applyRulesLoop_spec q tier (product.base_price * (q : ℚ)) pynow
        (sortRulesByPriority (_get_applicable_rules db product)) product.base_price []
    have hout : _calculate_dynamic_price db product q tier pynow
        = (max (product.base_price * (extra.map (fun r =>
            1 - _calculate_discount r q tier (product.base_price * (q : ℚ)) pynow / 100)).prod)
            product.min_allowed_price, extra) := by
      simp only [_calculate_dynamic_price]
      rw [heq]
      simp
    haveI : IsTotal PricingRule (fun a b => a.priority ≤ b.priority) :=
      ⟨fun a b => le_total _ _⟩
    haveI : IsTrans PricingRule (fun a b => a.priority ≤ b.priority) :=
      ⟨fun a b c hab hbc => le_trans hab hbc⟩
    have hsorted : List.Pairwise (fun a b : PricingRule => a.priority ≤ b.priority)
        (sortRulesByPriority (_get_applicable_rules db product)) :=
      List.sorted_insertionSort _ _
    rw [hout]
    refine ⟨le_max_right _ _, rfl, ?_, hsorted.sublist hsub, hstop⟩
    intro r hr
    refine ⟨hpos r hr, ?_⟩
    have : r ∈ sortRulesByPriority (_get_applicable_rules db product) := hsub.mem hr
    rw [sortRulesByPriority, List.mem_insertionSort] at this
    exact this
  · have happl : _get_applicable_rules dbC8 prodP1 = [rule10, rule20] := by decide
    have hsort : sortRulesByPriority [rule10, rule20] = [rule20, rule10] := by decide
    have hd20 : ∀ c : ℚ, _calculate_discount rule20 1 (some "gold") c pynow0 = 20 := fun c => rfl
    have hex20 : rule20.is_exclusive = true := rfl
    simp only [_calculate_dynamic_price, happl, hsort, applyRulesLoop, hd20, hex20,
      if_pos (by norm_num : (0:ℚ) < 20), if_pos rfl]
    rw [Prod.mk.injEq]
    constructor
    · show max (_apply_discount prodP1.base_price 20) prodP1.min_allowed_price = 80
      rw [show _apply_discount prodP1.base_price 20 = 80 by unfold _apply_discount prodP1; norm_num]
      rw [show prodP1.min_allowed_price = 50 from rfl]
      norm_num
    · rfl

theorem C8_rule_evaluation_witness :
    0 < _calculate_discount rule20 1 (some "gold") (prodP1.base_price * (1 : ℚ)) pynow0 ∧
    rule20 ∈ _get_applicable_rules dbC8 prodP1 ∧
    _calculate_dynamic_price dbC8 prodP1 1 (some "gold") pynow0 = (80, [rule20]) := by
  have h := C8_rule_evaluation dbC8 prodP1 1 (some "gold") pynow0
  have hm := h.1.2.2.1 rule20 (by rw [h.2]; exact List.mem_singleton_self _)
  exact ⟨hm.1, hm.2, h.2⟩

end DynamicPricing
